import Mathlib

/-!
# Transmitter ESP32: link / power state machine

A shallow embedding of `src/Transmitter/Transmitter ESP32.c`.

* `uint32_t` values are natural numbers below `2^32`; unsigned subtraction is `sub32`.
* The program's global variables form the record `Core`.
* The hardware (millisecond counter, pins, radio, sleep controller) is the record `Env`;
  every call into it is appended to `Env.trace`.
* Only `delay` and light sleep advance the millisecond counter.
-/

namespace Transmitter

/-! ## Machine arithmetic -/

/-- Number of values of a `uint32_t`. -/
def U32 : Nat := 4294967296

/-- Unsigned 32-bit subtraction `a - b` on `uint32_t` values. -/
def sub32 (a b : Nat) : Nat := (a % U32 + U32 - b % U32) % U32

/-! ## Pins, levels and constants -/

/-- Board pin aliases used by the sketch (`D1`, `D2`, `D10`). -/
inductive Pin where
  | D1
  | D2
  | D10
  deriving DecidableEq, Repr

/-- Arduino core level `HIGH`. -/
def HIGH : Int := 1
/-- Arduino core level `LOW`. -/
def LOW : Int := 0

def LED_PIN : Pin := Pin.D10
def LED_ACTIVE_LOW : Bool := false
def BTN1_PIN : Pin := Pin.D1
def BTN2_PIN : Pin := Pin.D2
def USE_BTN2 : Bool := true
def BTN_ACTIVE_LOW : Bool := true

def MSG_PING : Nat := 0xA0
def MSG_ACK : Nat := 0xA1
def MSG_BTN : Nat := 0xB0

def ENABLE_SLEEP : Bool := true
def IDLE_LIGHT_MS : Nat := 5 * 60 * 1000
def IDLE_DEEP_MS : Nat := 15 * 60 * 1000
def BREATH_PERIOD_MS : Nat := 2000
def BREATH_MAX_RAW : Nat := 51
def MAX_RETRIES : Nat := 3
def RETRY_DELAY_MS : Nat := 50
def DEBOUNCE_MS : Nat := 40

/-- Values of `esp_sleep_wakeup_cause_t` the sketch distinguishes. -/
inductive WakeCause where
  | undefinedWake
  | gpioWake
  | timerWake
  | otherWake
  deriving DecidableEq, Repr

/-! ## Button debouncer -/

/-- The `BtnDeb` record of the sketch. -/
structure BtnDeb where
  pin : Pin
  activeLow : Bool
  lastLevel : Int
  lastFlip : Nat
  armed : Bool
  deriving DecidableEq, Repr

/-- Initialiser of the global `b1`. -/
def b1Init : BtnDeb := { pin := BTN1_PIN, activeLow := BTN_ACTIVE_LOW, lastLevel := HIGH, lastFlip := 0, armed := true }
/-- Initialiser of the global `b2`. -/
def b2Init : BtnDeb := { pin := BTN2_PIN, activeLow := BTN_ACTIVE_LOW, lastLevel := HIGH, lastFlip := 0, armed := true }

/-- The polarity test `b.activeLow ? (lvl==LOW) : (lvl==HIGH)` of `pressEvent`. -/
def levelActive (activeLow : Bool) (lvl : Int) : Bool :=
  if activeLow then decide (lvl = LOW) else decide (lvl = HIGH)

/-- Body of `pressEvent` once `lvl = digitalRead(b.pin)` and `now = millis()` have been read:
returns the `bool` result and the updated channel. -/
def pressEventAt (b : BtnDeb) (lvl : Int) (now : Nat) : Bool × BtnDeb :=
  let b1 : BtnDeb := if lvl ≠ b.lastLevel then { b with lastLevel := lvl, lastFlip := now } else b
  let active := levelActive b1.activeLow lvl
  if !active then (false, { b1 with armed := true })
  else if b1.armed && decide (sub32 now b1.lastFlip > DEBOUNCE_MS) then (true, { b1 with armed := false })
  else (false, b1)

/-! ## Hardware environment -/

/-- Calls made into the hardware and the libraries, in program order. -/
inductive Effect where
  | analogWrite (pin : Pin) (v : Nat)
  | espNowSend (payload : List Nat)
  | delay (ms : Nat)
  | pinModeInputPullup (pin : Pin)
  | gpioWakeupEnableLow (pin : Pin)
  | sleepEnableGpioWakeup
  | sleepEnableTimerWakeup (us : Nat)
  | lightSleepStart
  | deepSleepDisableRomLogging
  | deepSleepEnableGpioWakeupLow (pins : List Pin)
  | deepSleepStart
  | getWakeupCause
  | serialBegin (baud : Nat)
  | logBanner
  | pinModeOutput (pin : Pin)
  | analogWriteResolution (pin : Pin) (bits : Nat)
  | analogWriteFrequency (pin : Pin) (hz : Nat)
  | wifiStaChannel (channel : Nat)
  | espNowInit
  | logInitFailed
  | registerRecvCb
  | addPeer (channel : Nat)
  | logBtnSent (id : Nat)
  | logBtnFailed (id : Nat)
  | logPingFailed
  | logDeepSleep
  | storeLastActivity (v : Nat)
  deriving DecidableEq, Repr

/-- The world outside the program. -/
structure Env where
  /-- Milliseconds since boot, not truncated. -/
  clock : Nat
  /-- Level of each pin at each millisecond. -/
  pinLevel : Nat → Pin → Int
  /-- Outcome (`ESP_OK` or not) of each `esp_now_send` call, by call number. -/
  txResult : Nat → Bool
  /-- Number of `esp_now_send` calls made so far. -/
  txCalls : Nat
  /-- For a light sleep entered at a given clock value: wake cause and milliseconds slept. -/
  sleepWake : Nat → WakeCause × Nat
  /-- Wake cause reported by the hardware at boot. -/
  bootWakeCause : WakeCause
  /-- Whether `esp_now_init` returns `ESP_OK`. -/
  espNowInitOk : Bool
  /-- Set once `esp_deep_sleep_start` has been called. -/
  deepSleeping : Bool
  /-- Every call made so far, oldest first. -/
  trace : List Effect

/-- The global variables of the sketch. -/
structure Core where
  lastAckMs : Nat
  linked : Bool
  lastActivityMs : Nat
  wakeCause : WakeCause
  b1 : BtnDeb
  b2 : BtnDeb
  /-- The function-local `static uint32_t lastPing` of `loop`. -/
  lastPing : Nat
  deriving DecidableEq, Repr

/-- Values of the globals before `setup` runs. -/
def Core.boot : Core :=
  { lastAckMs := 0, linked := false, lastActivityMs := 0, wakeCause := WakeCause.undefinedWake,
    b1 := b1Init, b2 := b2Init, lastPing := 0 }

/-- Program state together with the world. -/
structure Sys where
  core : Core
  env : Env

/-- Result of `millis()`: the clock truncated to 32 bits. -/
def millis (e : Env) : Nat := e.clock % U32

/-- Result of `digitalRead(pin)`. -/
def digitalRead (e : Env) (pin : Pin) : Int := e.pinLevel e.clock pin

def emit (x : Effect) (s : Sys) : Sys :=
  { s with env := { s.env with trace := s.env.trace ++ [x] } }

/-- The call `delay(ms)`. -/
def delay (ms : Nat) (s : Sys) : Sys :=
  emit (Effect.delay ms) { s with env := { s.env with clock := s.env.clock + ms } }

/-- The call `esp_now_send(RX_MAC, payload, len)`: whether it returned `ESP_OK`, and the new state. -/
def espNowSend (payload : List Nat) (s : Sys) : Bool × Sys :=
  (s.env.txResult s.env.txCalls,
   emit (Effect.espNowSend payload) { s with env := { s.env with txCalls := s.env.txCalls + 1 } })

/-- The `bool` function `pressEvent`, applied to a channel in the current world. -/
def pressEvent (b : BtnDeb) (e : Env) : Bool × BtnDeb :=
  pressEventAt b (digitalRead e b.pin) (millis e)

def isBtnActive (e : Env) (pin : Pin) : Bool :=
  let lvl := digitalRead e pin
  if BTN_ACTIVE_LOW then decide (lvl = LOW) else decide (lvl = HIGH)

/-! ## Sender -/

/-- The assignment `lastActivityMs = millis()`. -/
def storeActivity (s : Sys) : Sys :=
  emit (Effect.storeLastActivity (millis s.env))
    { s with core := { s.core with lastActivityMs := millis s.env } }

/-- The `for` loop of `sendBtn`, with `n` iterations left and loop variable `retry`,
followed by the failure report after the loop. -/
def sendBtnLoop (id : Nat) : Nat → Nat → Sys → Sys
  | 0, _, s => emit (Effect.logBtnFailed id) s
  | n + 1, retry, s =>
    let r := espNowSend [MSG_BTN, id] s
    if r.1 then
      storeActivity (emit (Effect.logBtnSent id) r.2)
    else
      let s2 := if retry < MAX_RETRIES - 1 then delay RETRY_DELAY_MS r.2 else r.2
      sendBtnLoop id n (retry + 1) s2

def sendBtn (id : Nat) (s : Sys) : Sys := sendBtnLoop id MAX_RETRIES 0 s

def sendPing (s : Sys) : Sys :=
  let r := espNowSend [MSG_PING] s
  if r.1 then r.2 else emit Effect.logPingFailed r.2

/-! ## Indicator -/

/-- The call `ledWriteRaw(v)` with `v` a `uint8_t`. -/
def ledWriteRaw (v : Nat) (s : Sys) : Sys :=
  let v1 := if LED_ACTIVE_LOW then (255 + 256 - v % 256) % 256 else v % 256
  emit (Effect.analogWrite LED_PIN v1) s

def ledOn (s : Sys) : Sys := ledWriteRaw 255 s
def ledLinked (s : Sys) : Sys := ledWriteRaw 64 s
def ledOff (s : Sys) : Sys := ledWriteRaw 0 s

def showNoLinkDoubleBlink (now : Nat) (s : Sys) : Sys :=
  let t := now % 2000
  if t < 120 then ledOn s
  else if t < 240 then ledOff s
  else if t < 360 then ledOn s
  else ledOff s

def ledTask (s : Sys) : Sys :=
  let now := millis s.env
  let anyLocalHeld := isBtnActive s.env BTN1_PIN || (USE_BTN2 && isBtnActive s.env BTN2_PIN)
  if anyLocalHeld then ledOn s
  else if s.core.linked then ledLinked s
  else showNoLinkDoubleBlink now s

/-! ## Radio receive handler -/

/-- The callback `onRecv(info, data, len)`; a null `data` pointer is `none`. -/
def onRecv (data : Option (List Nat)) (len : Int) (s : Sys) : Sys :=
  match data with
  | none => s
  | some bytes =>
    if len ≤ 0 then s
    else if bytes.head? = some MSG_ACK then
      { s with core := { s.core with lastAckMs := millis s.env } }
    else s

/-! ## Sleep helpers -/

def enableGpioWakeLow_Light (s : Sys) : Sys :=
  let s1 := emit (Effect.gpioWakeupEnableLow BTN1_PIN) s
  let s2 := if USE_BTN2 then emit (Effect.gpioWakeupEnableLow BTN2_PIN) s1 else s1
  emit Effect.sleepEnableGpioWakeup s2

/-- The pins of `gpioWakeMask()`, one per bit set. -/
def gpioWakeMask : List Pin :=
  let mask := [BTN1_PIN]
  if USE_BTN2 then mask ++ [BTN2_PIN] else mask

def enableGpioWakeLow_Deep (s : Sys) : Sys :=
  emit (Effect.deepSleepEnableGpioWakeupLow gpioWakeMask) (emit Effect.deepSleepDisableRomLogging s)

/-- The function `goToDeepSleep`; `esp_deep_sleep_start` does not return, which the
flag `deepSleeping` records. -/
def goToDeepSleep (s : Sys) : Sys :=
  let s1 := ledOff (emit Effect.logDeepSleep s)
  let s2 := emit (Effect.pinModeInputPullup BTN1_PIN) s1
  let s3 := if USE_BTN2 then emit (Effect.pinModeInputPullup BTN2_PIN) s2 else s2
  let s4 := emit Effect.deepSleepStart (enableGpioWakeLow_Deep s3)
  { s4 with env := { s4.env with deepSleeping := true } }

/-- The function `lightSleepTick(us)`: the value returned by `esp_light_sleep_start`, read as a
wake cause, and the state on resume. -/
def lightSleepTick (us : Nat) (s : Sys) : WakeCause × Sys :=
  let s1 := emit (Effect.pinModeInputPullup BTN1_PIN) s
  let s2 := if USE_BTN2 then emit (Effect.pinModeInputPullup BTN2_PIN) s1 else s1
  let s3 := emit (Effect.sleepEnableTimerWakeup us) (enableGpioWakeLow_Light s2)
  let w := s3.env.sleepWake s3.env.clock
  let s4 := emit Effect.lightSleepStart s3
  (w.1, { s4 with env := { s4.env with clock := s4.env.clock + w.2 } })

/-! ## Setup and loop -/

/-- The function `setup`; `none` when `esp_now_init` fails and the sketch blinks forever. -/
def setup (s : Sys) : Option Sys :=
  let s1 := emit Effect.getWakeupCause { s with core := { s.core with wakeCause := s.env.bootWakeCause } }
  let s2 := emit Effect.logBanner (delay 150 (emit (Effect.serialBegin 115200) s1))
  let s3 := emit (Effect.analogWriteResolution LED_PIN 8) (emit (Effect.pinModeOutput LED_PIN) s2)
  let s4 := ledOff (emit (Effect.analogWriteFrequency LED_PIN 2000) s3)
  let s5 := emit (Effect.pinModeInputPullup BTN1_PIN) s4
  let s6 := if USE_BTN2 then emit (Effect.pinModeInputPullup BTN2_PIN) s5 else s5
  let s7 : Sys := { s6 with core := { s6.core with b1 := { s6.core.b1 with lastLevel := digitalRead s6.env BTN1_PIN } } }
  let s8 : Sys :=
    if USE_BTN2 then
      { s7 with core := { s7.core with b2 := { s7.core.b2 with lastLevel := digitalRead s7.env BTN2_PIN } } }
    else s7
  let s9 := emit Effect.espNowInit (emit (Effect.wifiStaChannel 1) s8)
  if !s9.env.espNowInitOk then none
  else some (storeActivity (emit (Effect.addPeer 1) (emit Effect.registerRecvCb s9)))

/-- The state in which `setup` starts: globals at their initialisers. -/
def bootSys (e : Env) : Sys := { core := Core.boot, env := e }

/-- The three power regimes. -/
inductive Regime where
  | Active
  | Drowsy
  | Deep
  deriving DecidableEq, Repr

/-- Position of a regime in the order Active < Drowsy < Deep. -/
def Regime.rank : Regime → Nat
  | Regime.Active => 0
  | Regime.Drowsy => 1
  | Regime.Deep => 2

/-- The three guards of `loop`, in order, on the idle time `idle = now - lastActivityMs`;
`none` when no guard holds and `loop` falls off its end. -/
def regimeOfIdle (idle : Nat) : Option Regime :=
  if ENABLE_SLEEP && decide (idle < IDLE_LIGHT_MS) then some Regime.Active
  else if ENABLE_SLEEP && decide (idle < IDLE_DEEP_MS) then some Regime.Drowsy
  else if ENABLE_SLEEP && decide (idle ≥ IDLE_DEEP_MS) then some Regime.Deep
  else none

/-- The branch `loop` takes at time `now`. -/
def loopRegime (now lastActivityMs : Nat) : Option Regime :=
  regimeOfIdle (sub32 now lastActivityMs)

/-- The statement `linked = (now - lastAckMs) < 4000` of `loop`. -/
def loopLinked (now lastAckMs : Nat) : Bool := decide (sub32 now lastAckMs < 4000)

/-- The breathing intensity `val` of the Drowsy branch. -/
def breathVal (now lastActivityMs : Nat) : Nat :=
  let t := sub32 now lastActivityMs % BREATH_PERIOD_MS
  let half := BREATH_PERIOD_MS / 2
  if t < half then ((BREATH_MAX_RAW * t) % U32 / half) % 256
  else ((BREATH_MAX_RAW * (BREATH_PERIOD_MS - t)) % U32 / half) % 256

/-- Body of the first branch of `loop` (before 5 minutes idle). -/
def loopActive (now : Nat) (s : Sys) : Sys :=
  let r1 := pressEvent s.core.b1 s.env
  let s1 : Sys := { s with core := { s.core with b1 := r1.2 } }
  let s2 := if r1.1 then sendBtn 1 s1 else s1
  let s4 : Sys :=
    if USE_BTN2 then
      let r2 := pressEvent s2.core.b2 s2.env
      let s3 : Sys := { s2 with core := { s2.core with b2 := r2.2 } }
      if r2.1 then sendBtn 2 s3 else s3
    else s2
  let s5 : Sys :=
    if sub32 now s4.core.lastPing ≥ 500 then sendPing { s4 with core := { s4.core with lastPing := now } }
    else s4
  delay 1 (ledTask s5)

/-- Body of the second branch of `loop` (between 5 and 15 minutes idle). -/
def loopDrowsy (now : Nat) (s : Sys) : Sys :=
  if isBtnActive s.env BTN1_PIN then sendBtn 1 s
  else if USE_BTN2 && isBtnActive s.env BTN2_PIN then sendBtn 2 s
  else
    let s1 := ledWriteRaw (breathVal now s.core.lastActivityMs) s
    let r := lightSleepTick 500000 s1
    if r.1 = WakeCause.gpioWake then
      let s2 := delay 20 r.2
      if isBtnActive s2.env BTN1_PIN then sendBtn 1 s2
      else if USE_BTN2 && isBtnActive s2.env BTN2_PIN then sendBtn 2 s2
      else s2
    else r.2

/-- The function `loop`: one iteration. -/
def loop (s : Sys) : Sys :=
  let now := millis s.env
  let s1 : Sys := { s with core := { s.core with linked := loopLinked now s.core.lastAckMs } }
  match loopRegime now s1.core.lastActivityMs with
  | some Regime.Active => loopActive now s1
  | some Regime.Drowsy => loopDrowsy now s1
  | some Regime.Deep => goToDeepSleep s1
  | none => s1

/-! ## Sampling a channel repeatedly -/

/-- Channel state after `pressEvent` has run on successive samples `(level, time)`. -/
def pressState (b : BtnDeb) : List (Int × Nat) → BtnDeb
  | [] => b
  | x :: rest => pressState (pressEventAt b x.1 x.2).2 rest

/-- Times of the samples at which `pressEvent` returned `true`. -/
def eventTimes (b : BtnDeb) : List (Int × Nat) → List Nat
  | [] => []
  | x :: rest =>
    if (pressEventAt b x.1 x.2).1 then x.2 :: eventTimes (pressEventAt b x.1 x.2).2 rest
    else eventTimes (pressEventAt b x.1 x.2).2 rest

/-- Number of press events over a sequence of samples. -/
def countEvents (b : BtnDeb) (samples : List (Int × Nat)) : Nat := (eventTimes b samples).length

/-! ## Reading the call trace -/

/-- Transmission attempts in a trace. -/
def isSendAttempt : Effect → Bool
  | Effect.espNowSend _ => true
  | _ => false

/-- Blocking delays in a trace. -/
def isDelay : Effect → Bool
  | Effect.delay _ => true
  | _ => false

/-- Values stored into `lastActivityMs`, in order. -/
def activityStores : List Effect → List Nat
  | [] => []
  | Effect.storeLastActivity v :: rest => v :: activityStores rest
  | _ :: rest => activityStores rest

/-- The calls made between two states of one run. -/
def newTrace (before after : Sys) : List Effect := after.env.trace.drop before.env.trace.length

/-- The calls of `n` failed attempts, each followed by the retry delay. -/
def retryPattern (id : Nat) : Nat → List Effect
  | 0 => []
  | n + 1 => [Effect.espNowSend [MSG_BTN, id], Effect.delay RETRY_DELAY_MS] ++ retryPattern id n

/-- Whether a call of `sendBtn` reports the event as sent (its `- sent` log line). -/
def sendBtnSent (id : Nat) (s : Sys) : Bool :=
  decide (Effect.logBtnSent id ∈ newTrace s (sendBtn id s))

/-! ## Sample worlds and sample sequences -/

/-- An idle world used to instantiate statements: all pins released, every send succeeds. -/
def quietEnv (clock : Nat) : Env :=
  { clock := clock, pinLevel := fun _ _ => HIGH, txResult := fun _ => true, txCalls := 0,
    sleepWake := fun _ => (WakeCause.timerWake, 500), bootWakeCause := WakeCause.undefinedWake,
    espNowInitOk := true, deepSleeping := false, trace := [] }

/-- The state `loop` works on after its first two statements. -/
def withLinked (s : Sys) : Sys :=
  { s with core := { s.core with linked := loopLinked (millis s.env) s.core.lastAckMs } }

/-- A world whose radio fails the first attempt and succeeds from the second on. -/
def flakyEnv : Env :=
  { clock := 1000, pinLevel := fun _ _ => HIGH, txResult := fun n => decide (1 ≤ n), txCalls := 0,
    sleepWake := fun _ => (WakeCause.timerWake, 500), bootWakeCause := WakeCause.undefinedWake,
    espNowInitOk := true, deepSleeping := false, trace := [] }

/-- The boot-time globals in the flaky world. -/
def flakySys : Sys := { core := Core.boot, env := flakyEnv }

/-- The level `lvl` sampled `n` times, once per millisecond, starting when the clock reads `t`. -/
def sampleEveryMs (lvl : Int) : Nat → Nat → List (Int × Nat)
  | _, 0 => []
  | t, n + 1 => (lvl, t % U32) :: sampleEveryMs lvl (t + 1) n

/-- Timestamps of the samples are below `2^32` and non-decreasing, starting no earlier than `t0`. -/
def nondecreasingFrom : Nat → List (Int × Nat) → Bool
  | _, [] => true
  | t0, x :: rest => decide (t0 ≤ x.2) && decide (x.2 < U32) && nondecreasingFrom x.2 rest

/-- Number of inactive-to-active level transitions in a sample sequence, `prev` being the level
seen before the first sample. -/
def risingEdges (activeLow : Bool) (prev : Int) : List (Int × Nat) → Nat
  | [] => 0
  | x :: rest =>
    (if !levelActive activeLow prev && levelActive activeLow x.1 then 1 else 0) +
      risingEdges activeLow x.1 rest

/-- Summed time between consecutive samples that both read the level active. -/
def activeDuration (activeLow : Bool) : List (Int × Nat) → Nat
  | x :: y :: rest =>
    (if levelActive activeLow x.1 && levelActive activeLow y.1 then y.2 - x.2 else 0) +
      activeDuration activeLow (y :: rest)
  | _ => 0

/-- The transition time a channel holds after the first statement of `pressEvent`
(`if (lvl != b.lastLevel) b.lastFlip = now`). -/
def flipTime (b : BtnDeb) (lvl : Int) (now : Nat) : Nat :=
  if lvl ≠ b.lastLevel then now else b.lastFlip

/-- A channel last seen active at time 1000 and still armed. -/
def heldSince1000 : BtnDeb :=
  { pin := BTN1_PIN, activeLow := true, lastLevel := LOW, lastFlip := 1000, armed := true }

/-- A world in which button 1 is held down from power-on; every send succeeds. -/
def heldEnv : Env :=
  { clock := 0, pinLevel := fun _ p => if p = BTN1_PIN then LOW else HIGH,
    txResult := fun _ => true, txCalls := 0,
    sleepWake := fun _ => (WakeCause.timerWake, 500), bootWakeCause := WakeCause.gpioWake,
    espNowInitOk := true, deepSleeping := false, trace := [] }

/-- A press of 50 ms, a release of 5 ms and a second press of 50 ms, sampled every millisecond. -/
def twoPresses : List (Int × Nat) :=
  sampleEveryMs LOW 1000 50 ++ sampleEveryMs HIGH 1050 5 ++ sampleEveryMs LOW 1055 50

/-- What is known about a channel after it fired at `t1`, the latest sample being at `tl`:
it is still unarmed on an active level, or its last transition lies between `t1` and `tl`. -/
def FiredAt (t1 tl : Nat) (b : BtnDeb) : Prop :=
  (b.armed = false ∧ levelActive b.activeLow b.lastLevel = true) ∨
    (t1 ≤ b.lastFlip ∧ b.lastFlip ≤ tl)

/-- The state in which `setup` returns in the flaky world. -/
def flakyBooted : Sys := (setup (bootSys flakyEnv)).getD (bootSys flakyEnv)

/-- The state in which `setup` returns when button 1 is held from power-on. -/
def heldBooted : Sys := (setup (bootSys heldEnv)).getD (bootSys heldEnv)

/-- Time an armed channel has already spent on an active level since its last transition,
the latest sample being at `t0`. -/
def holdCredit (b : BtnDeb) (t0 : Nat) : Nat :=
  if (b.armed && levelActive b.activeLow b.lastLevel) = true then t0 - b.lastFlip else 0

/-- The state in which `setup` returns in the quiet world powered on at clock 0: no datagram
has been received. -/
def quietBooted : Sys := (setup (bootSys (quietEnv 0))).getD (bootSys (quietEnv 0))

/-! ## Indicator and breathing vocabulary -/

/-- The triangular wave of the breathing indicator at phase `t` of its 2000 ms period:
up from 0 to `BREATH_MAX_RAW` over the first half, back down over the second. -/
def triangle (t : Nat) : Nat :=
  if t < 1000 then 51 * t / 1000 else 51 * (2000 - t) / 1000

/-- The double-blink pattern at time `now`: two full-intensity pulses, then off. -/
def blinkValue (now : Nat) : Nat :=
  if now % 2000 < 120 ∨ (240 ≤ now % 2000 ∧ now % 2000 < 360) then 255 else 0

/-- Whether any button reads instantaneously active in the current world. -/
def anyButtonActive (e : Env) : Bool := isBtnActive e BTN1_PIN || isBtnActive e BTN2_PIN

/-- The Indicator contract for the Active regime: held buttons first, then the link. -/
def indicatorValue (anyActive linked : Bool) (now : Nat) : Nat :=
  if anyActive then 255 else if linked then 64 else blinkValue now

/-- A state whose last activity lies just before a wrap of the millisecond counter. -/
def wrappedSys : Sys :=
  { core := { Core.boot with lastActivityMs := 4294966296, lastAckMs := 4294966296 },
    env := quietEnv 4294968296 }

/-! ## Frames of a run -/

/-- The `- sent` report of a successful `sendBtn`. -/
def isBtnSentLog : Effect → Bool
  | Effect.logBtnSent _ => true
  | _ => false

/-- Writes to the indicator. -/
def isLedWrite : Effect → Bool
  | Effect.analogWrite _ _ => true
  | _ => false

/-- Calls that configure a pin for wake-up, arm a wake source or enter a sleep. -/
def isSleepCall : Effect → Bool
  | Effect.pinModeInputPullup _ => true
  | Effect.gpioWakeupEnableLow _ => true
  | Effect.sleepEnableGpioWakeup => true
  | Effect.sleepEnableTimerWakeup _ => true
  | Effect.lightSleepStart => true
  | Effect.deepSleepDisableRomLogging => true
  | Effect.deepSleepEnableGpioWakeupLow _ => true
  | Effect.deepSleepStart => true
  | _ => false

/-- The calls one `sendBtn id` can make. -/
def isSenderEffect (id : Nat) : Effect → Bool
  | Effect.espNowSend payload => decide (payload = [MSG_BTN, id])
  | Effect.delay ms => decide (ms = RETRY_DELAY_MS)
  | Effect.logBtnSent i => decide (i = id)
  | Effect.logBtnFailed i => decide (i = id)
  | Effect.storeLastActivity _ => true
  | _ => false

/-- The calls `sendPing` can make. -/
def isPingEffect : Effect → Bool
  | Effect.espNowSend payload => decide (payload = [MSG_PING])
  | Effect.logPingFailed => true
  | _ => false

/-- The calls of the sending part of an Active iteration. -/
def isRadioEffect (x : Effect) : Bool :=
  isSenderEffect 1 x || isSenderEffect 2 x || isPingEffect x

/-- Button ids of the `sendBtn` reports in a trace, sent or failed, in order: one per call of
`sendBtn`. -/
def btnReports : List Effect → List Nat
  | [] => []
  | Effect.logBtnSent id :: rest => id :: btnReports rest
  | Effect.logBtnFailed id :: rest => id :: btnReports rest
  | _ :: rest => btnReports rest

/-- The state `s2` continues the run of `s1`: its trace extends that of `s1` by calls that all
satisfy `P`, and `lastActivityMs` is the same unless a `sendBtn` reported success in between. -/
def Frame (P : Effect → Bool) (s1 s2 : Sys) : Prop :=
  ∃ l, s2.env.trace = s1.env.trace ++ l ∧ l.all P = true ∧
    (l.any isBtnSentLog = false → s2.core.lastActivityMs = s1.core.lastActivityMs)

/-- The Active branch of `loop` up to, and not including, its call of `ledTask`. -/
def activeBeforeLed (now : Nat) (s : Sys) : Sys :=
  let r1 := pressEvent s.core.b1 s.env
  let s1 : Sys := { s with core := { s.core with b1 := r1.2 } }
  let s2 := if r1.1 then sendBtn 1 s1 else s1
  let s4 : Sys :=
    if USE_BTN2 then
      let r2 := pressEvent s2.core.b2 s2.env
      let s3 : Sys := { s2 with core := { s2.core with b2 := r2.2 } }
      if r2.1 then sendBtn 2 s3 else s3
    else s2
  if sub32 now s4.core.lastPing ≥ 500 then sendPing { s4 with core := { s4.core with lastPing := now } }
  else s4

/-- What happens to the node between two observations: one `loop` iteration, or the radio
delivering a datagram. -/
inductive Step where
  | tick
  | recv (data : Option (List Nat)) (len : Int)

/-- One step of the node; a node in deep sleep runs nothing. -/
def step (x : Step) (s : Sys) : Sys :=
  match x with
  | Step.tick => if s.env.deepSleeping then s else loop s
  | Step.recv data len => onRecv data len s

/-- A sequence of steps. -/
def run : List Step → Sys → Sys
  | [], s => s
  | x :: rest, s => run rest (step x s)

/-- The calls `lightSleepTick(500000)` makes up to and including the entry into light sleep. -/
def sleepPrelude : List Effect :=
  [Effect.pinModeInputPullup BTN1_PIN, Effect.pinModeInputPullup BTN2_PIN,
   Effect.gpioWakeupEnableLow BTN1_PIN, Effect.gpioWakeupEnableLow BTN2_PIN,
   Effect.sleepEnableGpioWakeup, Effect.sleepEnableTimerWakeup 500000, Effect.lightSleepStart]

/-- The calls a Drowsy iteration can make after it resumes from light sleep. -/
def isWakeEffect (x : Effect) : Bool :=
  isSenderEffect 1 x || isSenderEffect 2 x || decide (x = Effect.delay 20)

/-- Any call at all. -/
def anyEffect (_ : Effect) : Bool := true

/-- The state of an Active iteration of `loop` when it reaches `ledTask`: the debounced
presses and the ping of the iteration have been sent. -/
def activeSent (s : Sys) : Sys := activeBeforeLed (millis s.env) (withLinked s)

/-- A Drowsy state, 300500 ms idle, whose last Ack came 500 ms ago; no button is pressed. -/
def drowsyLinkedSys : Sys :=
  { core := { Core.boot with lastAckMs := 300000 }, env := quietEnv 300500 }

/-- A Drowsy state, 300500 ms idle, with button 1 held down. -/
def drowsyHeldSys : Sys :=
  { core := { Core.boot with lastAckMs := 300000 }, env := { heldEnv with clock := 300500 } }

/-- A Drowsy state, 300500 ms idle, with button 1 held down and a radio that always fails. -/
def drowsyDeadRadioSys : Sys :=
  { core := { Core.boot with lastAckMs := 300000 },
    env := { heldEnv with clock := 300500, txResult := fun _ => false } }

/-- Two `loop` iterations with an Ack datagram delivered in between. -/
def tickAckTick : List Step := [Step.tick, Step.recv (some [MSG_ACK]) 1, Step.tick]

/-- A single `loop` iteration. -/
def oneTick : List Step := [Step.tick]

/-- The transition time that counts for a run of samples taken from channel state `b`: the
time of the first sample when the level changes there, the recorded transition otherwise. -/
def holdStart (b : BtnDeb) : List (Int × Nat) → Nat
  | [] => b.lastFlip
  | x :: _ => flipTime b x.1 x.2

/-- The sample `x` is taken more than `DEBOUNCE_MS` after time `t0`, in 32-bit arithmetic. -/
def debounced (t0 : Nat) (x : Int × Nat) : Bool := decide (DEBOUNCE_MS < sub32 x.2 t0)

/-- A press at clock 1000 sampled at irregular, sparse times while it is held. -/
def sparsePress : List (Int × Nat) := [(LOW, 1000), (LOW, 1030), (LOW, 1100), (LOW, 1200)]

/-! ## Basic facts -/

theorem sub32_lt (a b : Nat) : sub32 a b < U32 := by
  unfold sub32
  exact Nat.mod_lt _ (by decide)

theorem sub32_of_le (a b : Nat) (hab : b ≤ a) (ha : a < U32) : sub32 a b = a - b := by
  simp only [sub32, U32] at *
  omega

theorem regimeOfIdle_active (idle : Nat) : regimeOfIdle idle = some Regime.Active ↔ idle < 300000 := by
  simp only [regimeOfIdle, ENABLE_SLEEP, IDLE_LIGHT_MS, IDLE_DEEP_MS, Bool.true_and, decide_eq_true_eq]
  split_ifs <;> simp <;> omega

theorem regimeOfIdle_drowsy (idle : Nat) :
    regimeOfIdle idle = some Regime.Drowsy ↔ 300000 ≤ idle ∧ idle < 900000 := by
  simp only [regimeOfIdle, ENABLE_SLEEP, IDLE_LIGHT_MS, IDLE_DEEP_MS, Bool.true_and, decide_eq_true_eq]
  split_ifs <;> simp <;> omega

theorem regimeOfIdle_deep (idle : Nat) : regimeOfIdle idle = some Regime.Deep ↔ 900000 ≤ idle := by
  simp only [regimeOfIdle, ENABLE_SLEEP, IDLE_LIGHT_MS, IDLE_DEEP_MS, Bool.true_and, decide_eq_true_eq]
  split_ifs <;> simp <;> omega

theorem loop_unfold (s : Sys) :
    loop s = match loopRegime (millis s.env) s.core.lastActivityMs with
      | some Regime.Active => loopActive (millis s.env) (withLinked s)
      | some Regime.Drowsy => loopDrowsy (millis s.env) (withLinked s)
      | some Regime.Deep => goToDeepSleep (withLinked s)
      | none => withLinked s := rfl

/-! ## Power regime -/

/-- C1: with `ENABLE_SLEEP = true`, `loop` takes exactly one of its three branches, chosen by
the 32-bit idle time `idle = now - lastActivityMs`: the Active branch iff `idle < 300000`, the
Drowsy branch iff `300000 ≤ idle < 900000`, the Deep branch iff `idle ≥ 900000`. The regime is
Active at 0, Drowsy at 300000, Deep at 900000, never Active from 300000 on, and it is monotone
non-decreasing in the idle time for the order Active < Drowsy < Deep. -/
theorem regime_step_function (s : Sys) (idle1 idle2 : Nat) (hle : idle1 ≤ idle2) :
    ENABLE_SLEEP = true ∧
    sub32 (millis s.env) s.core.lastActivityMs < U32 ∧
    (sub32 (millis s.env) s.core.lastActivityMs < 300000 →
      loop s = loopActive (millis s.env) (withLinked s)) ∧
    (300000 ≤ sub32 (millis s.env) s.core.lastActivityMs ∧
      sub32 (millis s.env) s.core.lastActivityMs < 900000 →
      loop s = loopDrowsy (millis s.env) (withLinked s)) ∧
    (900000 ≤ sub32 (millis s.env) s.core.lastActivityMs →
      loop s = goToDeepSleep (withLinked s)) ∧
    (regimeOfIdle idle1 = some Regime.Active ↔ idle1 < 300000) ∧
    (regimeOfIdle idle1 = some Regime.Drowsy ↔ 300000 ≤ idle1 ∧ idle1 < 900000) ∧
    (regimeOfIdle idle1 = some Regime.Deep ↔ 900000 ≤ idle1) ∧
    regimeOfIdle idle1 ≠ none ∧
    regimeOfIdle 0 = some Regime.Active ∧
    regimeOfIdle 300000 = some Regime.Drowsy ∧
    regimeOfIdle 900000 = some Regime.Deep ∧
    (300000 ≤ idle1 → regimeOfIdle idle1 ≠ some Regime.Active) ∧
    (∀ r1 r2, regimeOfIdle idle1 = some r1 → regimeOfIdle idle2 = some r2 → r1.rank ≤ r2.rank) := by
  refine ⟨rfl, sub32_lt _ _, ?_, ?_, ?_, regimeOfIdle_active _, regimeOfIdle_drowsy _,
    regimeOfIdle_deep _, ?_, by decide, by decide, by decide, ?_, ?_⟩
  · intro h
    rw [loop_unfold, loopRegime, (regimeOfIdle_active _).2 h]
  · intro h
    rw [loop_unfold, loopRegime, (regimeOfIdle_drowsy _).2 h]
  · intro h
    rw [loop_unfold, loopRegime, (regimeOfIdle_deep _).2 h]
  · intro h
    rcases Nat.lt_or_ge idle1 300000 with h1 | h1
    · rw [(regimeOfIdle_active _).2 h1] at h
      exact absurd h (by simp)
    · rcases Nat.lt_or_ge idle1 900000 with h2 | h2
      · rw [(regimeOfIdle_drowsy _).2 ⟨h1, h2⟩] at h
        exact absurd h (by simp)
      · rw [(regimeOfIdle_deep _).2 h2] at h
        exact absurd h (by simp)
  · intro h1 h2
    have := (regimeOfIdle_active _).1 h2
    omega
  · intro r1 r2 h1 h2
    cases r1 <;> cases r2 <;> simp only [Regime.rank] <;> try omega
    · have a := (regimeOfIdle_drowsy _).1 h1
      have b := (regimeOfIdle_active _).1 h2
      omega
    · have a := (regimeOfIdle_deep _).1 h1
      have b := (regimeOfIdle_active _).1 h2
      omega
    · have a := (regimeOfIdle_deep _).1 h1
      have b := (regimeOfIdle_drowsy _).1 h2
      omega

/-- Witness for C1: idle times 100 and 400000 in a freshly booted state at clock 1000. -/
theorem regime_step_function_witness :
    100 ≤ 400000 ∧
    (ENABLE_SLEEP = true ∧
    sub32 (millis flakySys.env) flakySys.core.lastActivityMs < U32 ∧
    (sub32 (millis flakySys.env) flakySys.core.lastActivityMs < 300000 →
      loop flakySys = loopActive (millis flakySys.env) (withLinked flakySys)) ∧
    (300000 ≤ sub32 (millis flakySys.env) flakySys.core.lastActivityMs ∧
      sub32 (millis flakySys.env) flakySys.core.lastActivityMs < 900000 →
      loop flakySys = loopDrowsy (millis flakySys.env) (withLinked flakySys)) ∧
    (900000 ≤ sub32 (millis flakySys.env) flakySys.core.lastActivityMs →
      loop flakySys = goToDeepSleep (withLinked flakySys)) ∧
    (regimeOfIdle 100 = some Regime.Active ↔ 100 < 300000) ∧
    (regimeOfIdle 100 = some Regime.Drowsy ↔ 300000 ≤ 100 ∧ 100 < 900000) ∧
    (regimeOfIdle 100 = some Regime.Deep ↔ 900000 ≤ 100) ∧
    regimeOfIdle 100 ≠ none ∧
    regimeOfIdle 0 = some Regime.Active ∧
    regimeOfIdle 300000 = some Regime.Drowsy ∧
    regimeOfIdle 900000 = some Regime.Deep ∧
    (300000 ≤ 100 → regimeOfIdle 100 ≠ some Regime.Active) ∧
    (∀ r1 r2, regimeOfIdle 100 = some r1 → regimeOfIdle 400000 = some r2 → r1.rank ≤ r2.rank)) :=
  ⟨by decide, regime_step_function flakySys 100 400000 (by decide)⟩

/-! ## Sender -/

theorem sendBtn_first_ok (id : Nat) (s : Sys) (h0 : s.env.txResult s.env.txCalls = true) :
    sendBtn id s =
      { core := { s.core with lastActivityMs := s.env.clock % U32 },
        env := { s.env with
          txCalls := s.env.txCalls + 1,
          trace := s.env.trace ++ [Effect.espNowSend [MSG_BTN, id], Effect.logBtnSent id,
            Effect.storeLastActivity (s.env.clock % U32)] } } := by
  simp [sendBtn, sendBtnLoop, MAX_RETRIES, espNowSend, emit, storeActivity, h0, millis]

theorem sendBtn_second_ok (id : Nat) (s : Sys) (h0 : s.env.txResult s.env.txCalls = false)
    (h1 : s.env.txResult (s.env.txCalls + 1) = true) :
    sendBtn id s =
      { core := { s.core with lastActivityMs := (s.env.clock + 50) % U32 },
        env := { s.env with
          clock := s.env.clock + 50,
          txCalls := s.env.txCalls + 2,
          trace := s.env.trace ++ [Effect.espNowSend [MSG_BTN, id], Effect.delay 50,
            Effect.espNowSend [MSG_BTN, id], Effect.logBtnSent id,
            Effect.storeLastActivity ((s.env.clock + 50) % U32)] } } := by
  simp [sendBtn, sendBtnLoop, MAX_RETRIES, RETRY_DELAY_MS, espNowSend, emit, delay, storeActivity,
    h0, h1, millis]

theorem sendBtn_third_ok (id : Nat) (s : Sys) (h0 : s.env.txResult s.env.txCalls = false)
    (h1 : s.env.txResult (s.env.txCalls + 1) = false)
    (h2 : s.env.txResult (s.env.txCalls + 2) = true) :
    sendBtn id s =
      { core := { s.core with lastActivityMs := (s.env.clock + 100) % U32 },
        env := { s.env with
          clock := s.env.clock + 100,
          txCalls := s.env.txCalls + 3,
          trace := s.env.trace ++ [Effect.espNowSend [MSG_BTN, id], Effect.delay 50,
            Effect.espNowSend [MSG_BTN, id], Effect.delay 50,
            Effect.espNowSend [MSG_BTN, id], Effect.logBtnSent id,
            Effect.storeLastActivity ((s.env.clock + 100) % U32)] } } := by
  simp [sendBtn, sendBtnLoop, MAX_RETRIES, RETRY_DELAY_MS, espNowSend, emit, delay, storeActivity,
    h0, h1, h2, millis, Nat.add_assoc]

theorem sendBtn_all_fail (id : Nat) (s : Sys) (h0 : s.env.txResult s.env.txCalls = false)
    (h1 : s.env.txResult (s.env.txCalls + 1) = false)
    (h2 : s.env.txResult (s.env.txCalls + 2) = false) :
    sendBtn id s =
      { core := s.core,
        env := { s.env with
          clock := s.env.clock + 100,
          txCalls := s.env.txCalls + 3,
          trace := s.env.trace ++ [Effect.espNowSend [MSG_BTN, id], Effect.delay 50,
            Effect.espNowSend [MSG_BTN, id], Effect.delay 50,
            Effect.espNowSend [MSG_BTN, id], Effect.logBtnFailed id] } } := by
  simp [sendBtn, sendBtnLoop, MAX_RETRIES, RETRY_DELAY_MS, espNowSend, emit, delay,
    h0, h1, h2, Nat.add_assoc]

/-- Every sequence of transport outcomes has a first-success index in the sense used below:
either the index of the first successful attempt, or `MAX_RETRIES` when the first
`MAX_RETRIES` attempts all fail. -/
theorem exists_first_success (s : Sys) :
    ∃ k, (∀ j, j < min k MAX_RETRIES → s.env.txResult (s.env.txCalls + j) = false) ∧
      (k < MAX_RETRIES → s.env.txResult (s.env.txCalls + k) = true) := by
  by_cases h0 : s.env.txResult (s.env.txCalls + 0) = true
  · exact ⟨0, by simp [MAX_RETRIES], fun _ => h0⟩
  by_cases h1 : s.env.txResult (s.env.txCalls + 1) = true
  · refine ⟨1, ?_, fun _ => h1⟩
    intro j hj
    simp only [MAX_RETRIES] at hj
    have : j = 0 := by omega
    subst this
    simpa using h0
  by_cases h2 : s.env.txResult (s.env.txCalls + 2) = true
  · refine ⟨2, ?_, fun _ => h2⟩
    intro j hj
    simp only [MAX_RETRIES] at hj
    have : j = 0 ∨ j = 1 := by omega
    rcases this with rfl | rfl
    · simpa using h0
    · simpa using h1
  · refine ⟨3, ?_, fun h => absurd h (by simp [MAX_RETRIES])⟩
    intro j hj
    simp only [MAX_RETRIES] at hj
    have : j = 0 ∨ j = 1 ∨ j = 2 := by omega
    rcases this with rfl | rfl | rfl
    · simpa using h0
    · simpa using h1
    · simpa using h2

/-- C2: whatever the transport answers, `sendBtn` makes exactly `min (k+1) MAX_RETRIES`
transmission attempts, where `k` is the index of the first successful attempt (`MAX_RETRIES = 3`
attempts when none of the first three succeeds): never more than `MAX_RETRIES`, none after the
first success, it reports Sent iff one of the first `MAX_RETRIES` attempts succeeds, and it
waits `RETRY_DELAY_MS = 50` ms exactly once between consecutive attempts, so there is one delay
fewer than attempts and none after the last attempt. -/
theorem sendBtn_attempts (id : Nat) (s : Sys) (k : Nat)
    (hfail : ∀ j, j < min k MAX_RETRIES → s.env.txResult (s.env.txCalls + j) = false)
    (hok : k < MAX_RETRIES → s.env.txResult (s.env.txCalls + k) = true) :
    (sendBtn id s).env.trace =
      s.env.trace ++ retryPattern id (min k (MAX_RETRIES - 1)) ++
        (Effect.espNowSend [MSG_BTN, id] ::
          (if k < MAX_RETRIES then
            [Effect.logBtnSent id, Effect.storeLastActivity (millis (sendBtn id s).env)]
           else [Effect.logBtnFailed id])) ∧
    (newTrace s (sendBtn id s)).countP isSendAttempt = min (k + 1) MAX_RETRIES ∧
    (newTrace s (sendBtn id s)).countP isSendAttempt ≤ MAX_RETRIES ∧
    (sendBtn id s).env.txCalls = s.env.txCalls + min (k + 1) MAX_RETRIES ∧
    (sendBtnSent id s = true ↔ k < MAX_RETRIES) ∧
    (sendBtnSent id s = true ↔
      ∃ j, j < MAX_RETRIES ∧ s.env.txResult (s.env.txCalls + j) = true) ∧
    (Effect.logBtnFailed id ∈ newTrace s (sendBtn id s) ↔ MAX_RETRIES ≤ k) ∧
    (newTrace s (sendBtn id s)).countP isDelay =
      (newTrace s (sendBtn id s)).countP isSendAttempt - 1 ∧
    (∀ x ∈ newTrace s (sendBtn id s), isDelay x = true → x = Effect.delay RETRY_DELAY_MS) ∧
    (sendBtn id s).env.clock =
      s.env.clock + RETRY_DELAY_MS * ((newTrace s (sendBtn id s)).countP isSendAttempt - 1) := by
  rcases k with _ | _ | _ | k
  · have h0 : s.env.txResult s.env.txCalls = true := by simpa [MAX_RETRIES] using hok
    have e := sendBtn_first_ok id s h0
    refine ⟨?_, ?_, ?_, ?_, ?_, ?_, ?_, ?_, ?_, ?_⟩ <;>
      simp [sendBtnSent, newTrace, e, retryPattern, MAX_RETRIES, RETRY_DELAY_MS, millis,
        isSendAttempt, isDelay]
    exact ⟨0, by omega, by simpa using h0⟩
  · have h0 : s.env.txResult s.env.txCalls = false := by
      simpa [MAX_RETRIES] using hfail 0 (by simp [MAX_RETRIES])
    have h1 : s.env.txResult (s.env.txCalls + 1) = true := by simpa [MAX_RETRIES] using hok
    have e := sendBtn_second_ok id s h0 h1
    refine ⟨?_, ?_, ?_, ?_, ?_, ?_, ?_, ?_, ?_, ?_⟩ <;>
      simp [sendBtnSent, newTrace, e, retryPattern, MAX_RETRIES, RETRY_DELAY_MS, millis,
        isSendAttempt, isDelay]
    exact ⟨1, by omega, h1⟩
  · have h0 : s.env.txResult s.env.txCalls = false := by
      simpa [MAX_RETRIES] using hfail 0 (by simp [MAX_RETRIES])
    have h1 : s.env.txResult (s.env.txCalls + 1) = false := by
      simpa [MAX_RETRIES] using hfail 1 (by simp [MAX_RETRIES])
    have h2 : s.env.txResult (s.env.txCalls + 2) = true := by simpa [MAX_RETRIES] using hok
    have e := sendBtn_third_ok id s h0 h1 h2
    refine ⟨?_, ?_, ?_, ?_, ?_, ?_, ?_, ?_, ?_, ?_⟩ <;>
      simp [sendBtnSent, newTrace, e, retryPattern, MAX_RETRIES, RETRY_DELAY_MS, millis,
        isSendAttempt, isDelay]
    exact ⟨2, by omega, h2⟩
  · have h0 : s.env.txResult s.env.txCalls = false := by
      simpa [MAX_RETRIES] using hfail 0 (by simp [MAX_RETRIES])
    have h1 : s.env.txResult (s.env.txCalls + 1) = false := by
      simpa [MAX_RETRIES] using hfail 1 (by simp [MAX_RETRIES])
    have h2 : s.env.txResult (s.env.txCalls + 2) = false := by
      simpa [MAX_RETRIES] using hfail 2 (by simp [MAX_RETRIES])
    have e := sendBtn_all_fail id s h0 h1 h2
    have hk3 : ¬ (k + 1 + 1 + 1 < 3) := by omega
    refine ⟨?_, ?_, ?_, ?_, ?_, ?_, ?_, ?_, ?_, ?_⟩ <;>
      simp [sendBtnSent, newTrace, e, retryPattern, MAX_RETRIES, RETRY_DELAY_MS, millis,
        isSendAttempt, isDelay, hk3]
    intro j hj
    have : j = 0 ∨ j = 1 ∨ j = 2 := by omega
    rcases this with rfl | rfl | rfl
    · simpa using h0
    · exact h1
    · exact h2

/-- Witness for C2: the second attempt is the first to succeed. -/
theorem sendBtn_attempts_witness :
    (∀ j, j < min 1 MAX_RETRIES → flakySys.env.txResult (flakySys.env.txCalls + j) = false) ∧
    (1 < MAX_RETRIES → flakySys.env.txResult (flakySys.env.txCalls + 1) = true) ∧
    ((sendBtn 1 flakySys).env.trace =
      flakySys.env.trace ++ retryPattern 1 (min 1 (MAX_RETRIES - 1)) ++
        (Effect.espNowSend [MSG_BTN, 1] ::
          (if 1 < MAX_RETRIES then
            [Effect.logBtnSent 1, Effect.storeLastActivity (millis (sendBtn 1 flakySys).env)]
           else [Effect.logBtnFailed 1])) ∧
    (newTrace flakySys (sendBtn 1 flakySys)).countP isSendAttempt = min (1 + 1) MAX_RETRIES ∧
    (newTrace flakySys (sendBtn 1 flakySys)).countP isSendAttempt ≤ MAX_RETRIES ∧
    (sendBtn 1 flakySys).env.txCalls = flakySys.env.txCalls + min (1 + 1) MAX_RETRIES ∧
    (sendBtnSent 1 flakySys = true ↔ 1 < MAX_RETRIES) ∧
    (sendBtnSent 1 flakySys = true ↔
      ∃ j, j < MAX_RETRIES ∧ flakySys.env.txResult (flakySys.env.txCalls + j) = true) ∧
    (Effect.logBtnFailed 1 ∈ newTrace flakySys (sendBtn 1 flakySys) ↔ MAX_RETRIES ≤ 1) ∧
    (newTrace flakySys (sendBtn 1 flakySys)).countP isDelay =
      (newTrace flakySys (sendBtn 1 flakySys)).countP isSendAttempt - 1 ∧
    (∀ x ∈ newTrace flakySys (sendBtn 1 flakySys),
      isDelay x = true → x = Effect.delay RETRY_DELAY_MS) ∧
    (sendBtn 1 flakySys).env.clock =
      flakySys.env.clock +
        RETRY_DELAY_MS * ((newTrace flakySys (sendBtn 1 flakySys)).countP isSendAttempt - 1)) :=
  ⟨by decide, by decide, sendBtn_attempts 1 flakySys 1 (by decide) (by decide)⟩

/-- C3: `sendBtn` writes the ActivityTimer `lastActivityMs` if and only if it reports Sent.
When one of the first `MAX_RETRIES` attempts succeeds, `lastActivityMs` is stored exactly once,
with the time `millis()` of that success, and nothing else in the core state changes; when all
`MAX_RETRIES` attempts fail, `lastActivityMs` and every other global are left as they were. -/
theorem sendBtn_activity_timer (id : Nat) (s : Sys) (k : Nat)
    (hfail : ∀ j, j < min k MAX_RETRIES → s.env.txResult (s.env.txCalls + j) = false)
    (hok : k < MAX_RETRIES → s.env.txResult (s.env.txCalls + k) = true) :
    (k < MAX_RETRIES →
      sendBtnSent id s = true ∧
      activityStores (newTrace s (sendBtn id s)) = [millis (sendBtn id s).env] ∧
      (sendBtn id s).env.clock = s.env.clock + RETRY_DELAY_MS * k ∧
      (sendBtn id s).core = { s.core with lastActivityMs := millis (sendBtn id s).env }) ∧
    (MAX_RETRIES ≤ k →
      sendBtnSent id s = false ∧
      activityStores (newTrace s (sendBtn id s)) = [] ∧
      (sendBtn id s).core = s.core) ∧
    ((activityStores (newTrace s (sendBtn id s))).length = 1 ↔ sendBtnSent id s = true) ∧
    ((activityStores (newTrace s (sendBtn id s))).length = 0 ↔ sendBtnSent id s = false) := by
  rcases k with _ | _ | _ | k
  · have h0 : s.env.txResult s.env.txCalls = true := by simpa [MAX_RETRIES] using hok
    have e := sendBtn_first_ok id s h0
    refine ⟨?_, ?_, ?_, ?_⟩ <;>
      simp [sendBtnSent, newTrace, e, MAX_RETRIES, RETRY_DELAY_MS, millis, activityStores]
  · have h0 : s.env.txResult s.env.txCalls = false := by
      simpa [MAX_RETRIES] using hfail 0 (by simp [MAX_RETRIES])
    have h1 : s.env.txResult (s.env.txCalls + 1) = true := by simpa [MAX_RETRIES] using hok
    have e := sendBtn_second_ok id s h0 h1
    refine ⟨?_, ?_, ?_, ?_⟩ <;>
      simp [sendBtnSent, newTrace, e, MAX_RETRIES, RETRY_DELAY_MS, millis, activityStores]
  · have h0 : s.env.txResult s.env.txCalls = false := by
      simpa [MAX_RETRIES] using hfail 0 (by simp [MAX_RETRIES])
    have h1 : s.env.txResult (s.env.txCalls + 1) = false := by
      simpa [MAX_RETRIES] using hfail 1 (by simp [MAX_RETRIES])
    have h2 : s.env.txResult (s.env.txCalls + 2) = true := by simpa [MAX_RETRIES] using hok
    have e := sendBtn_third_ok id s h0 h1 h2
    refine ⟨?_, ?_, ?_, ?_⟩ <;>
      simp [sendBtnSent, newTrace, e, MAX_RETRIES, RETRY_DELAY_MS, millis, activityStores]
  · have h0 : s.env.txResult s.env.txCalls = false := by
      simpa [MAX_RETRIES] using hfail 0 (by simp [MAX_RETRIES])
    have h1 : s.env.txResult (s.env.txCalls + 1) = false := by
      simpa [MAX_RETRIES] using hfail 1 (by simp [MAX_RETRIES])
    have h2 : s.env.txResult (s.env.txCalls + 2) = false := by
      simpa [MAX_RETRIES] using hfail 2 (by simp [MAX_RETRIES])
    have e := sendBtn_all_fail id s h0 h1 h2
    have hk3 : ¬ (k + 1 + 1 + 1 < 3) := by omega
    refine ⟨?_, ?_, ?_, ?_⟩ <;>
      simp [sendBtnSent, newTrace, e, MAX_RETRIES, RETRY_DELAY_MS, millis, activityStores, hk3]

/-- Witness for C3: the second attempt is the first to succeed. -/
theorem sendBtn_activity_timer_witness :
    (∀ j, j < min 1 MAX_RETRIES → flakySys.env.txResult (flakySys.env.txCalls + j) = false) ∧
    (1 < MAX_RETRIES → flakySys.env.txResult (flakySys.env.txCalls + 1) = true) ∧
    ((1 < MAX_RETRIES →
      sendBtnSent 1 flakySys = true ∧
      activityStores (newTrace flakySys (sendBtn 1 flakySys)) = [millis (sendBtn 1 flakySys).env] ∧
      (sendBtn 1 flakySys).env.clock = flakySys.env.clock + RETRY_DELAY_MS * 1 ∧
      (sendBtn 1 flakySys).core =
        { flakySys.core with lastActivityMs := millis (sendBtn 1 flakySys).env }) ∧
    (MAX_RETRIES ≤ 1 →
      sendBtnSent 1 flakySys = false ∧
      activityStores (newTrace flakySys (sendBtn 1 flakySys)) = [] ∧
      (sendBtn 1 flakySys).core = flakySys.core) ∧
    ((activityStores (newTrace flakySys (sendBtn 1 flakySys))).length = 1 ↔
      sendBtnSent 1 flakySys = true) ∧
    ((activityStores (newTrace flakySys (sendBtn 1 flakySys))).length = 0 ↔
      sendBtnSent 1 flakySys = false)) :=
  ⟨by decide, by decide, sendBtn_activity_timer 1 flakySys 1 (by decide) (by decide)⟩

/-! ## Debouncer -/

theorem pressEventAt_fst (b : BtnDeb) (lvl : Int) (now : Nat) :
    (pressEventAt b lvl now).1 =
      (levelActive b.activeLow lvl && b.armed &&
        decide (DEBOUNCE_MS < sub32 now (flipTime b lvl now))) := by
  obtain ⟨pin, al, ll, lf, ar⟩ := b
  simp only [pressEventAt, flipTime]
  by_cases h : lvl = ll
  · subst h
    cases ha : levelActive al lvl <;> cases ar <;> simp [ha]
    split_ifs <;> simp_all
  · cases ha : levelActive al lvl <;> cases ar <;> simp [h, ha]
    split_ifs <;> simp_all

theorem pressEventAt_snd (b : BtnDeb) (lvl : Int) (now : Nat) :
    (pressEventAt b lvl now).2 =
      { pin := b.pin, activeLow := b.activeLow, lastLevel := lvl, lastFlip := flipTime b lvl now,
        armed := if levelActive b.activeLow lvl then b.armed && !(pressEventAt b lvl now).1
                 else true } := by
  rw [pressEventAt_fst]
  obtain ⟨pin, al, ll, lf, ar⟩ := b
  simp only [pressEventAt, flipTime]
  by_cases h : lvl = ll
  · subst h
    cases ha : levelActive al lvl <;> cases ar <;> simp [ha]
    split_ifs <;> simp_all
  · cases ha : levelActive al lvl <;> cases ar <;> simp [h, ha]
    split_ifs <;> simp_all

theorem pressEventAt_activeLow (b : BtnDeb) (lvl : Int) (now : Nat) :
    (pressEventAt b lvl now).2.activeLow = b.activeLow := by
  rw [pressEventAt_snd]

theorem pressEventAt_lastLevel (b : BtnDeb) (lvl : Int) (now : Nat) :
    (pressEventAt b lvl now).2.lastLevel = lvl := by
  rw [pressEventAt_snd]

theorem pressEventAt_lastFlip (b : BtnDeb) (lvl : Int) (now : Nat) :
    (pressEventAt b lvl now).2.lastFlip = flipTime b lvl now := by
  rw [pressEventAt_snd]

theorem pressEventAt_armed (b : BtnDeb) (lvl : Int) (now : Nat) :
    (pressEventAt b lvl now).2.armed =
      if levelActive b.activeLow lvl then b.armed && !(pressEventAt b lvl now).1 else true := by
  rw [pressEventAt_snd]

theorem pressEventAt_fires_iff (b : BtnDeb) (lvl : Int) (now : Nat) :
    (pressEventAt b lvl now).1 = true ↔
      levelActive b.activeLow lvl = true ∧ b.armed = true ∧
        DEBOUNCE_MS < sub32 now (flipTime b lvl now) := by
  rw [pressEventAt_fst]
  simp [and_assoc]

theorem pressEventAt_unarmed (b : BtnDeb) (lvl : Int) (now : Nat) (h : b.armed = false) :
    (pressEventAt b lvl now).1 = false := by
  rw [pressEventAt_fst, h]
  simp

theorem pressEventAt_fire_clears (b : BtnDeb) (lvl : Int) (now : Nat)
    (h : (pressEventAt b lvl now).1 = true) : (pressEventAt b lvl now).2.armed = false := by
  have ha := ((pressEventAt_fires_iff b lvl now).1 h).1
  rw [pressEventAt_armed, ha, h]
  simp

/-- Two levels that are both active for a polarity are the same level. -/
theorem levelActive_unique (al : Bool) (l1 l2 : Int) (h1 : levelActive al l1 = true)
    (h2 : levelActive al l2 = true) : l1 = l2 := by
  cases al <;> simp [levelActive] at h1 h2 <;> rw [h1, h2]

theorem sub32_self (t : Nat) : sub32 t t = 0 := by
  simp only [sub32, U32]
  omega

theorem sub32_offset (T k : Nat) (hk : k < U32) : sub32 ((T + k) % U32) (T % U32) = k := by
  simp only [sub32, U32] at *
  omega

/-- An unarmed channel sampled while the level stays active emits nothing and stays unarmed. -/
theorem eventTimes_unarmed_hold (samples : List (Int × Nat)) :
    ∀ b : BtnDeb, b.armed = false →
      (∀ x ∈ samples, levelActive b.activeLow x.1 = true) →
      eventTimes b samples = [] ∧ (pressState b samples).armed = false := by
  induction samples with
  | nil => intro b h _; exact ⟨rfl, h⟩
  | cons x rest ih =>
    intro b h hact
    have hno : (pressEventAt b x.1 x.2).1 = false := pressEventAt_unarmed b x.1 x.2 h
    have harm : (pressEventAt b x.1 x.2).2.armed = false := by
      rw [pressEventAt_armed, h, hact x (List.mem_cons_self _ _)]
      simp
    have htail : ∀ y ∈ rest, levelActive (pressEventAt b x.1 x.2).2.activeLow y.1 = true := by
      intro y hy
      rw [pressEventAt_activeLow]
      exact hact y (List.mem_cons_of_mem _ hy)
    have := ih (pressEventAt b x.1 x.2).2 harm htail
    simp only [eventTimes, pressState, hno]
    simpa using this

theorem sampleEveryMs_level (lvl : Int) (n : Nat) :
    ∀ t, ∀ x ∈ sampleEveryMs lvl t n, x.1 = lvl := by
  induction n with
  | zero => intro t x hx; simp [sampleEveryMs] at hx
  | succ n ih =>
    intro t x hx
    simp only [sampleEveryMs, List.mem_cons] at hx
    rcases hx with rfl | hx
    · rfl
    · exact ih _ x hx

/-- An armed active-low channel that has read LOW since clock `T`, sampled every millisecond
from `T + k` on: it fires at `T + 41` and at no other sample. -/
theorem eventTimes_hold_from (T : Nat) (m : Nat) :
    ∀ (k : Nat) (b : BtnDeb), b.activeLow = true → b.lastLevel = LOW → b.lastFlip = T % U32 →
      b.armed = true → k ≤ 41 →
      eventTimes b (sampleEveryMs LOW (T + k) m) = if 41 < k + m then [(T + 41) % U32] else [] := by
  induction m with
  | zero =>
    intro k b _ _ _ _ hk
    have : ¬ (41 < k + 0) := by omega
    simp only [sampleEveryMs, eventTimes]
    rw [if_neg this]
  | succ m ih =>
    intro k b hal hl hf ha hk
    have hft : flipTime b LOW ((T + k) % U32) = T % U32 := by
      simp [flipTime, hl, hf]
    have hsub : sub32 ((T + k) % U32) (T % U32) = k :=
      sub32_offset T k (by simp only [U32]; omega)
    have hact : levelActive b.activeLow LOW = true := by simp [hal, levelActive]
    have hfst : (pressEventAt b LOW ((T + k) % U32)).1 = decide (40 < k) := by
      rw [pressEventAt_fst, hft, hsub, hact, ha]
      simp [DEBOUNCE_MS]
    simp only [sampleEveryMs, eventTimes]
    rcases Nat.lt_or_ge 40 k with h40 | h40
    · have hk41 : k = 41 := by omega
      subst hk41
      have harm : (pressEventAt b LOW ((T + 41) % U32)).2.armed = false :=
        pressEventAt_fire_clears _ _ _ (by rw [hfst]; simp)
      have htail : ∀ y ∈ sampleEveryMs LOW (T + 41 + 1) m,
          levelActive (pressEventAt b LOW ((T + 41) % U32)).2.activeLow y.1 = true := by
        intro y hy
        rw [pressEventAt_activeLow, sampleEveryMs_level LOW m _ y hy]
        exact hact
      have hrest := (eventTimes_unarmed_hold _ _ harm htail).1
      have hlt : 41 < 41 + (m + 1) := by omega
      rw [hfst]
      simp [hrest, hlt]
    · have hno : decide (40 < k) = false := by simp; omega
      have harm : (pressEventAt b LOW ((T + k) % U32)).2.armed = true := by
        rw [pressEventAt_armed, hact, ha, hfst, hno]
        simp
      have hrest := ih (k + 1) (pressEventAt b LOW ((T + k) % U32)).2
        (by rw [pressEventAt_activeLow]; exact hal) (pressEventAt_lastLevel _ _ _)
        (by rw [pressEventAt_lastFlip]; exact hft) harm (by omega)
      rw [hfst, hno]
      simp only [Bool.false_eq_true, if_false]
      rw [show T + k + 1 = T + (k + 1) by omega, hrest]
      have : k + 1 + m = k + (m + 1) := by omega
      rw [this]

/-- An armed active-low channel last seen HIGH that goes LOW when the clock reads `T` and is
sampled every millisecond while LOW fires exactly at the sample taken at `T + 41`. -/
theorem eventTimes_press (c : BtnDeb) (T n : Nat) (hlow : c.activeLow = true)
    (hhigh : c.lastLevel = HIGH) (harmed : c.armed = true) :
    eventTimes c (sampleEveryMs LOW T n) = if 41 < n then [(T + 41) % U32] else [] := by
  cases n with
  | zero => simp [sampleEveryMs, eventTimes]
  | succ n =>
    have hne : LOW ≠ c.lastLevel := by rw [hhigh]; decide
    have hft : flipTime c LOW (T % U32) = T % U32 := by simp [flipTime, hne]
    have hact : levelActive c.activeLow LOW = true := by simp [hlow, levelActive]
    have hfst : (pressEventAt c LOW (T % U32)).1 = false := by
      rw [pressEventAt_fst, hft, sub32_self]
      simp [DEBOUNCE_MS]
    have harm : (pressEventAt c LOW (T % U32)).2.armed = true := by
      rw [pressEventAt_armed, hact, harmed, hfst]
      simp
    have hrest := eventTimes_hold_from T n 1 (pressEventAt c LOW (T % U32)).2
      (by rw [pressEventAt_activeLow]; exact hlow) (pressEventAt_lastLevel _ _ _)
      (by rw [pressEventAt_lastFlip]; exact hft) harm (by omega)
    simp only [sampleEveryMs, eventTimes, hfst, Bool.false_eq_true, if_false]
    rw [hrest]
    have : (41 < 1 + n) ↔ (41 < n + 1) := by omega
    simp only [this]

/-- A run of samples that all read the level active emits at most one event. -/
theorem countEvents_hold_le_one (samples : List (Int × Nat)) :
    ∀ b : BtnDeb, (∀ x ∈ samples, levelActive b.activeLow x.1 = true) →
      countEvents b samples ≤ 1 := by
  induction samples with
  | nil => intro b _; simp [countEvents, eventTimes]
  | cons x rest ih =>
    intro b hact
    have htail : ∀ y ∈ rest, levelActive (pressEventAt b x.1 x.2).2.activeLow y.1 = true := by
      intro y hy
      rw [pressEventAt_activeLow]
      exact hact y (List.mem_cons_of_mem _ hy)
    cases hf : (pressEventAt b x.1 x.2).1 with
    | true =>
      have hrest := (eventTimes_unarmed_hold rest _ (pressEventAt_fire_clears _ _ _ hf) htail).1
      simp [countEvents, eventTimes, hf, hrest]
    | false =>
      have := ih _ htail
      simpa [countEvents, eventTimes, hf] using this

/-- C4 (amended): for every channel state and every sample `(lvl, now)`, `pressEvent` emits a
press event exactly when, after recording any level change, the level is active for the
channel's polarity, the channel is armed, and strictly more than `DEBOUNCE_MS = 40` ms have
elapsed since the last recorded transition, `(now - lastFlip) > 40` in unsigned 32-bit
arithmetic; firing clears the armed flag. An armed active-low channel that goes HIGH to LOW at
time `T` and is sampled every millisecond while it stays LOW emits its event at the sample
taken at `T + 41` ms. -/
theorem pressEvent_fires_iff (b : BtnDeb) (lvl : Int) (now : Nat) (e : Env) (c : BtnDeb)
    (T n : Nat) (hlow : c.activeLow = true) (hhigh : c.lastLevel = HIGH)
    (harmed : c.armed = true) :
    ((pressEventAt b lvl now).1 = true ↔
      levelActive b.activeLow lvl = true ∧ b.armed = true ∧
        DEBOUNCE_MS < sub32 now (flipTime b lvl now)) ∧
    DEBOUNCE_MS = 40 ∧
    (pressEventAt b lvl now).2.lastLevel = lvl ∧
    (pressEventAt b lvl now).2.lastFlip = flipTime b lvl now ∧
    ((pressEventAt b lvl now).1 = true → (pressEventAt b lvl now).2.armed = false) ∧
    pressEvent b e = pressEventAt b (digitalRead e b.pin) (millis e) ∧
    eventTimes c (sampleEveryMs LOW T n) = (if 41 < n then [(T + 41) % U32] else []) :=
  ⟨pressEventAt_fires_iff b lvl now, rfl, pressEventAt_lastLevel b lvl now,
    pressEventAt_lastFlip b lvl now, pressEventAt_fire_clears b lvl now, rfl,
    eventTimes_press c T n hlow hhigh harmed⟩

/-- Witness for C4: channel 1 as initialised, pressed at clock 1000 and held for 100 ms. -/
theorem pressEvent_fires_iff_witness :
    b1Init.activeLow = true ∧ b1Init.lastLevel = HIGH ∧ b1Init.armed = true ∧
    (((pressEventAt heldSince1000 LOW 1041).1 = true ↔
      levelActive heldSince1000.activeLow LOW = true ∧ heldSince1000.armed = true ∧
        DEBOUNCE_MS < sub32 1041 (flipTime heldSince1000 LOW 1041)) ∧
    DEBOUNCE_MS = 40 ∧
    (pressEventAt heldSince1000 LOW 1041).2.lastLevel = LOW ∧
    (pressEventAt heldSince1000 LOW 1041).2.lastFlip = flipTime heldSince1000 LOW 1041 ∧
    ((pressEventAt heldSince1000 LOW 1041).1 = true →
      (pressEventAt heldSince1000 LOW 1041).2.armed = false) ∧
    pressEvent heldSince1000 flakyEnv =
      pressEventAt heldSince1000 (digitalRead flakyEnv heldSince1000.pin) (millis flakyEnv) ∧
    eventTimes b1Init (sampleEveryMs LOW 1000 101) =
      (if 41 < 101 then [(1000 + 41) % U32] else [])) :=
  ⟨by decide, by decide, by decide,
    pressEvent_fires_iff heldSince1000 LOW 1041 flakyEnv b1Init 1000 101 (by decide) (by decide)
      (by decide)⟩

/-- C4 as stated fails: a channel armed and active for exactly 40 ms does not fire, and a press
at clock 1000 sampled every millisecond fires at 1041, not at 1040. -/
theorem pressEvent_fires_iff_counterexample :
    ¬ ((pressEventAt heldSince1000 LOW 1040).1 = true ↔
      levelActive heldSince1000.activeLow LOW = true ∧ heldSince1000.armed = true ∧
        DEBOUNCE_MS ≤ sub32 1040 (flipTime heldSince1000 LOW 1040)) ∧
    eventTimes b1Init (sampleEveryMs LOW 1000 101) ≠ [1040] ∧
    eventTimes b1Init (sampleEveryMs LOW 1000 101) = [1041] := by
  decide

theorem length_find_map (p : Int × Nat → Bool) (l : List (Int × Nat)) :
    (((l.find? p).toList).map Prod.snd).length = if l.any p = true then 1 else 0 := by
  induction l with
  | nil => simp
  | cons x rest ih =>
    cases hp : p x with
    | true => simp [List.find?_cons, hp]
    | false =>
      rw [List.find?_cons, hp, List.any_cons, hp, Bool.false_or]
      exact ih

/-- An armed channel already on its active level, sampled while the level stays active, fires
at the first sample taken more than `DEBOUNCE_MS` after its recorded transition, and only
there. -/
theorem eventTimes_settled_hold (hold : List (Int × Nat)) :
    ∀ b : BtnDeb, b.armed = true → levelActive b.activeLow b.lastLevel = true →
      (∀ x ∈ hold, levelActive b.activeLow x.1 = true) →
      eventTimes b hold = ((hold.find? (debounced b.lastFlip)).toList).map Prod.snd := by
  induction hold with
  | nil => intro b _ _ _; rfl
  | cons x rest ih =>
    intro b ha hl hact
    have hx := hact x (List.mem_cons_self _ _)
    have heq : x.1 = b.lastLevel := levelActive_unique b.activeLow _ _ hx hl
    have hft : flipTime b x.1 x.2 = b.lastFlip := by simp [flipTime, heq]
    have hfst : (pressEventAt b x.1 x.2).1 = debounced b.lastFlip x := by
      rw [pressEventAt_fst, hft, hx, ha]
      simp [debounced]
    have htail : ∀ y ∈ rest, levelActive (pressEventAt b x.1 x.2).2.activeLow y.1 = true := by
      intro y hy
      rw [pressEventAt_activeLow]
      exact hact y (List.mem_cons_of_mem _ hy)
    simp only [eventTimes]
    cases hp : debounced b.lastFlip x with
    | true =>
      have hf : (pressEventAt b x.1 x.2).1 = true := by rw [hfst, hp]
      have hrest := (eventTimes_unarmed_hold rest _ (pressEventAt_fire_clears _ _ _ hf) htail).1
      simp [hf, hrest, List.find?_cons, hp]
    | false =>
      have hf : (pressEventAt b x.1 x.2).1 = false := by rw [hfst, hp]
      have harm : (pressEventAt b x.1 x.2).2.armed = true := by
        rw [pressEventAt_armed, hx, ha, hf]
        simp
      have hrest := ih (pressEventAt b x.1 x.2).2 harm
        (by rw [pressEventAt_activeLow, pressEventAt_lastLevel]; exact hx) htail
      rw [pressEventAt_lastFlip, hft] at hrest
      simp [hf, hrest, List.find?_cons, hp]

/-- An armed channel sampled, on any schedule, while the level reads active fires at the first
sample taken more than `DEBOUNCE_MS` after the start of the hold, and only there. -/
theorem eventTimes_hold (hold : List (Int × Nat)) (b : BtnDeb) (ha : b.armed = true)
    (hact : ∀ x ∈ hold, levelActive b.activeLow x.1 = true) :
    eventTimes b hold =
      ((hold.find? (debounced (holdStart b hold))).toList).map Prod.snd := by
  cases hold with
  | nil => rfl
  | cons x rest =>
    have hx := hact x (List.mem_cons_self _ _)
    by_cases heq : x.1 = b.lastLevel
    · have hl : levelActive b.activeLow b.lastLevel = true := by rw [← heq]; exact hx
      have hs : holdStart b (x :: rest) = b.lastFlip := by simp [holdStart, flipTime, heq]
      rw [hs]
      exact eventTimes_settled_hold (x :: rest) b ha hl hact
    · have hft : flipTime b x.1 x.2 = x.2 := by simp [flipTime, heq]
      have hs : holdStart b (x :: rest) = x.2 := by simp [holdStart, hft]
      have hp : debounced x.2 x = false := by simp [debounced, sub32_self, DEBOUNCE_MS]
      have hf : (pressEventAt b x.1 x.2).1 = false := by
        rw [pressEventAt_fst, hft, sub32_self]
        simp [DEBOUNCE_MS]
      have harm : (pressEventAt b x.1 x.2).2.armed = true := by
        rw [pressEventAt_armed, hx, ha, hf]
        simp
      have htail : ∀ y ∈ rest, levelActive (pressEventAt b x.1 x.2).2.activeLow y.1 = true := by
        intro y hy
        rw [pressEventAt_activeLow]
        exact hact y (List.mem_cons_of_mem _ hy)
      have hrest := eventTimes_settled_hold rest (pressEventAt b x.1 x.2).2 harm
        (by rw [pressEventAt_activeLow, pressEventAt_lastLevel]; exact hx) htail
      rw [pressEventAt_lastFlip, hft] at hrest
      rw [hs]
      simp [eventTimes, hf, hrest, List.find?_cons, hp]

theorem countEvents_hold (hold : List (Int × Nat)) (b : BtnDeb) (ha : b.armed = true)
    (hact : ∀ x ∈ hold, levelActive b.activeLow x.1 = true) :
    countEvents b hold = if hold.any (debounced (holdStart b hold)) = true then 1 else 0 := by
  rw [countEvents, eventTimes_hold hold b ha hact, length_find_map]

/-- C5 (amended): firing clears `armed`, only a sample that reads the level inactive sets
`armed` again, and an unarmed channel never fires; so once an event has been emitted no further
event is emitted while the following samples read the level active, and a continuous hold of
any length, however often it is sampled, yields at most one event. Whatever the sampling
schedule, an armed channel held active yields exactly one event if and only if some sample of
the hold is taken more than `DEBOUNCE_MS` after the start of the hold (the recorded
transition), at the first such sample, and none otherwise. In particular an armed active-low
channel going HIGH to LOW and sampled every millisecond yields exactly one event once it has
been held for more than `DEBOUNCE_MS` (more than 41 samples), and none before; LOW held for
100 ms yields exactly one. -/
theorem one_event_per_hold (b : BtnDeb) (lvl : Int) (now : Nat) (after hold : List (Int × Nat))
    (c : BtnDeb) (T n : Nat) (d : BtnDeb) (press : List (Int × Nat))
    (hafter : ∀ x ∈ after, levelActive b.activeLow x.1 = true)
    (hhold : ∀ x ∈ hold, levelActive b.activeLow x.1 = true)
    (hlow : c.activeLow = true) (hhigh : c.lastLevel = HIGH) (harmed : c.armed = true)
    (hd : d.armed = true) (hpress : ∀ x ∈ press, levelActive d.activeLow x.1 = true) :
    ((pressEventAt b lvl now).1 = true → (pressEventAt b lvl now).2.armed = false) ∧
    (b.armed = false → (pressEventAt b lvl now).2.armed = true →
      levelActive b.activeLow lvl = false) ∧
    (levelActive b.activeLow lvl = false → (pressEventAt b lvl now).2.armed = true) ∧
    (b.armed = false → (pressEventAt b lvl now).1 = false) ∧
    ((pressEventAt b lvl now).1 = true →
      eventTimes (pressEventAt b lvl now).2 after = [] ∧
      (pressState (pressEventAt b lvl now).2 after).armed = false) ∧
    countEvents b hold ≤ 1 ∧
    countEvents c (sampleEveryMs LOW T n) = (if 41 < n then 1 else 0) ∧
    countEvents c (sampleEveryMs LOW T 101) = 1 ∧
    eventTimes d press =
      ((press.find? (debounced (holdStart d press))).toList).map Prod.snd ∧
    countEvents d press =
      (if press.any (debounced (holdStart d press)) = true then 1 else 0) ∧
    (countEvents d press = 1 ↔ ∃ x ∈ press, DEBOUNCE_MS < sub32 x.2 (holdStart d press)) ∧
    (countEvents d press = 0 ↔ ∀ x ∈ press, sub32 x.2 (holdStart d press) ≤ DEBOUNCE_MS) := by
  have hcount := countEvents_hold press d hd hpress
  refine ⟨pressEventAt_fire_clears b lvl now, ?_, ?_, pressEventAt_unarmed b lvl now, ?_,
    countEvents_hold_le_one hold b hhold, ?_, ?_, eventTimes_hold press d hd hpress, hcount,
    ?_, ?_⟩
  · intro hu ha
    rw [pressEventAt_armed, hu] at ha
    cases hl : levelActive b.activeLow lvl with
    | false => rfl
    | true => simp [hl] at ha
  · intro hl
    rw [pressEventAt_armed, hl]
    simp
  · intro hf
    refine eventTimes_unarmed_hold after _ (pressEventAt_fire_clears _ _ _ hf) ?_
    intro y hy
    rw [pressEventAt_activeLow]
    exact hafter y hy
  · rw [countEvents, eventTimes_press c T n hlow hhigh harmed]
    split_ifs <;> rfl
  · rw [countEvents, eventTimes_press c T 101 hlow hhigh harmed]
    rfl
  · rw [hcount]
    cases h : press.any (debounced (holdStart d press)) with
    | true =>
      obtain ⟨x, hx, hp⟩ := List.any_eq_true.1 h
      exact ⟨fun _ => ⟨x, hx, by simpa [debounced] using hp⟩, fun _ => rfl⟩
    | false =>
      constructor
      · intro h01
        exact absurd h01 (by decide)
      · rintro ⟨x, hx, hp⟩
        have := (List.any_eq_false.1 h) x hx
        simp only [debounced, decide_eq_true_eq] at this
        exact absurd hp this
  · rw [hcount]
    cases h : press.any (debounced (holdStart d press)) with
    | true =>
      obtain ⟨x, hx, hp⟩ := List.any_eq_true.1 h
      constructor
      · intro h10
        exact absurd h10 (by decide)
      · intro hall
        have h1 := hall x hx
        simp only [debounced, decide_eq_true_eq] at hp
        omega
    | false =>
      refine ⟨fun _ => ?_, fun _ => rfl⟩
      intro x hx
      have := (List.any_eq_false.1 h) x hx
      simp only [debounced, decide_eq_true_eq] at this
      omega

/-- Witness for C5: a channel that has just fired and is sampled twice more while held;
channel 1 as initialised, pressed at clock 1000 and held for 100 ms; and the same press
sampled at irregular times, which fires at 1100. -/
theorem one_event_per_hold_witness :
    (∀ x ∈ [(LOW, 1042), (LOW, 1043)], levelActive heldSince1000.activeLow x.1 = true) ∧
    (∀ x ∈ [(LOW, 1041), (LOW, 1042)], levelActive heldSince1000.activeLow x.1 = true) ∧
    b1Init.activeLow = true ∧ b1Init.lastLevel = HIGH ∧ b1Init.armed = true ∧
    b1Init.armed = true ∧ (∀ x ∈ sparsePress, levelActive b1Init.activeLow x.1 = true) ∧
    eventTimes b1Init sparsePress = [1100] ∧
    (((pressEventAt heldSince1000 LOW 1041).1 = true →
      (pressEventAt heldSince1000 LOW 1041).2.armed = false) ∧
    (heldSince1000.armed = false → (pressEventAt heldSince1000 LOW 1041).2.armed = true →
      levelActive heldSince1000.activeLow LOW = false) ∧
    (levelActive heldSince1000.activeLow LOW = false →
      (pressEventAt heldSince1000 LOW 1041).2.armed = true) ∧
    (heldSince1000.armed = false → (pressEventAt heldSince1000 LOW 1041).1 = false) ∧
    ((pressEventAt heldSince1000 LOW 1041).1 = true →
      eventTimes (pressEventAt heldSince1000 LOW 1041).2 [(LOW, 1042), (LOW, 1043)] = [] ∧
      (pressState (pressEventAt heldSince1000 LOW 1041).2 [(LOW, 1042), (LOW, 1043)]).armed
        = false) ∧
    countEvents heldSince1000 [(LOW, 1041), (LOW, 1042)] ≤ 1 ∧
    countEvents b1Init (sampleEveryMs LOW 1000 50) = (if 41 < 50 then 1 else 0) ∧
    countEvents b1Init (sampleEveryMs LOW 1000 101) = 1 ∧
    eventTimes b1Init sparsePress =
      ((sparsePress.find? (debounced (holdStart b1Init sparsePress))).toList).map Prod.snd ∧
    countEvents b1Init sparsePress =
      (if sparsePress.any (debounced (holdStart b1Init sparsePress)) = true then 1 else 0) ∧
    (countEvents b1Init sparsePress = 1 ↔
      ∃ x ∈ sparsePress, DEBOUNCE_MS < sub32 x.2 (holdStart b1Init sparsePress)) ∧
    (countEvents b1Init sparsePress = 0 ↔
      ∀ x ∈ sparsePress, sub32 x.2 (holdStart b1Init sparsePress) ≤ DEBOUNCE_MS)) :=
  ⟨by decide, by decide, by decide, by decide, by decide, by decide, by decide, by decide,
    one_event_per_hold heldSince1000 LOW 1041 [(LOW, 1042), (LOW, 1043)]
      [(LOW, 1041), (LOW, 1042)] b1Init 1000 50 b1Init sparsePress (by decide) (by decide)
      (by decide) (by decide) (by decide) (by decide) (by decide)⟩

/-- C5 as stated fails: LOW held for 10 ms on channel 1 as initialised, sampled every
millisecond, yields no event rather than exactly one. -/
theorem one_event_per_hold_counterexample :
    (∀ x ∈ sampleEveryMs LOW 1000 11, levelActive b1Init.activeLow x.1 = true) ∧
    countEvents b1Init (sampleEveryMs LOW 1000 11) = 0 ∧
    countEvents b1Init (sampleEveryMs LOW 1000 11) ≠ 1 := by
  decide

theorem nondecreasingFrom_cons (t0 : Nat) (x : Int × Nat) (rest : List (Int × Nat)) :
    nondecreasingFrom t0 (x :: rest) = true ↔
      t0 ≤ x.2 ∧ x.2 < U32 ∧ nondecreasingFrom x.2 rest = true := by
  simp [nondecreasingFrom, and_assoc]

theorem flipTime_cases (b : BtnDeb) (lvl : Int) (now : Nat) :
    (lvl ≠ b.lastLevel ∧ flipTime b lvl now = now) ∨
      (lvl = b.lastLevel ∧ flipTime b lvl now = b.lastFlip) := by
  unfold flipTime
  by_cases h : lvl = b.lastLevel
  · right; exact ⟨h, by simp [h]⟩
  · left; exact ⟨h, by simp [h]⟩

/-- One sample keeps `FiredAt`, and a further event comes more than `DEBOUNCE_MS` after `t1`. -/
theorem firedAt_step (t1 tl : Nat) (b : BtnDeb) (lvl : Int) (now : Nat) (h1 : t1 ≤ tl)
    (hinv : FiredAt t1 tl b) (hle : tl ≤ now) (hlt : now < U32) :
    FiredAt t1 now (pressEventAt b lvl now).2 ∧
      ((pressEventAt b lvl now).1 = true → t1 + 41 ≤ now) := by
  rcases hinv with ⟨hu, hact⟩ | ⟨hlo, hhi⟩
  · refine ⟨?_, ?_⟩
    · cases hl : levelActive b.activeLow lvl with
      | true =>
        left
        refine ⟨?_, ?_⟩
        · rw [pressEventAt_armed, hu, hl]; simp
        · rw [pressEventAt_activeLow, pressEventAt_lastLevel]; exact hl
      | false =>
        right
        have hne : lvl ≠ b.lastLevel := by
          intro he
          rw [he, hact] at hl
          exact absurd hl (by simp)
        have : flipTime b lvl now = now := by simp [flipTime, hne]
        rw [pressEventAt_lastFlip, this]
        exact ⟨le_trans h1 hle, le_refl _⟩
    · intro hf
      rw [pressEventAt_unarmed b lvl now hu] at hf
      exact absurd hf (by simp)
  · have hft : t1 ≤ flipTime b lvl now ∧ flipTime b lvl now ≤ now := by
      rcases flipTime_cases b lvl now with ⟨_, he⟩ | ⟨_, he⟩ <;> rw [he]
      · exact ⟨le_trans h1 hle, le_refl _⟩
      · exact ⟨hlo, le_trans hhi hle⟩
    refine ⟨Or.inr ?_, ?_⟩
    · rw [pressEventAt_lastFlip]; exact hft
    · intro hf
      have h40 := ((pressEventAt_fires_iff b lvl now).1 hf).2.2
      rw [sub32_of_le now _ hft.2 hlt] at h40
      simp only [DEBOUNCE_MS] at h40
      omega

/-- After an event at `t1`, every later event comes more than `DEBOUNCE_MS` after `t1`. -/
theorem eventTimes_after_fire (samples : List (Int × Nat)) :
    ∀ (b : BtnDeb) (t1 tl : Nat), t1 ≤ tl → FiredAt t1 tl b →
      nondecreasingFrom tl samples = true → ∀ t ∈ eventTimes b samples, t1 + 41 ≤ t := by
  induction samples with
  | nil => intro b t1 tl _ _ _ t ht; simp [eventTimes] at ht
  | cons x rest ih =>
    intro b t1 tl h1 hinv hs t ht
    rw [nondecreasingFrom_cons] at hs
    obtain ⟨hle, hlt, hrest⟩ := hs
    obtain ⟨hinv2, hfire⟩ := firedAt_step t1 tl b x.1 x.2 h1 hinv hle hlt
    have hnext := ih (pressEventAt b x.1 x.2).2 t1 x.2 (le_trans h1 hle) hinv2 hrest
    simp only [eventTimes] at ht
    cases hf : (pressEventAt b x.1 x.2).1 with
    | true =>
      rw [hf] at ht
      simp only [if_true, List.mem_cons] at ht
      rcases ht with rfl | ht
      · exact hfire hf
      · exact hnext t ht
    | false =>
      rw [hf] at ht
      simp only [Bool.false_eq_true, if_false] at ht
      exact hnext t ht

theorem eventTimes_spaced (samples : List (Int × Nat)) :
    ∀ (b : BtnDeb) (t0 : Nat), nondecreasingFrom t0 samples = true →
      List.Pairwise (fun t1 t2 => t1 + 41 ≤ t2) (eventTimes b samples) := by
  induction samples with
  | nil => intro b t0 _; simp [eventTimes]
  | cons x rest ih =>
    intro b t0 hs
    rw [nondecreasingFrom_cons] at hs
    obtain ⟨_, _, hrest⟩ := hs
    have htail := ih (pressEventAt b x.1 x.2).2 x.2 hrest
    simp only [eventTimes]
    cases hf : (pressEventAt b x.1 x.2).1 with
    | true =>
      simp only [if_true, List.pairwise_cons]
      refine ⟨?_, htail⟩
      refine eventTimes_after_fire rest _ x.2 x.2 (le_refl _) (Or.inl ⟨?_, ?_⟩) hrest
      · exact pressEventAt_fire_clears _ _ _ hf
      · rw [pressEventAt_activeLow, pressEventAt_lastLevel]
        exact ((pressEventAt_fires_iff b x.1 x.2).1 hf).1
    | false =>
      simpa using htail

/-- C6: for every sequence of `pressEvent` samples on one channel taken at non-decreasing
timestamps without counter wrap, any two press events emitted on that channel are at least
`DEBOUNCE_MS = 40` ms apart. -/
theorem events_spaced_by_debounce (b : BtnDeb) (samples : List (Int × Nat))
    (hs : nondecreasingFrom 0 samples = true) :
    List.Pairwise (fun t1 t2 => t1 + DEBOUNCE_MS ≤ t2) (eventTimes b samples) := by
  refine List.Pairwise.imp ?_ (eventTimes_spaced samples b 0 hs)
  intro t1 t2 h
  simp only [DEBOUNCE_MS]
  omega

/-- Witness for C6: two presses of channel 1, with events at 1041 and 1096. -/
theorem events_spaced_by_debounce_witness :
    nondecreasingFrom 0 twoPresses = true ∧
    eventTimes b1Init twoPresses = [1041, 1096] ∧
    List.Pairwise (fun t1 t2 => t1 + DEBOUNCE_MS ≤ t2) (eventTimes b1Init twoPresses) :=
  ⟨by decide, by decide, events_spaced_by_debounce b1Init twoPresses (by decide)⟩

/-- The channels `setup` leaves behind: the initialisers with `lastLevel` replaced by the level
read 150 ms after power-on. -/
theorem setup_buttons (e : Env) (s : Sys) (hs : setup (bootSys e) = some s) :
    s.core.b1 = { b1Init with lastLevel := e.pinLevel (e.clock + 150) BTN1_PIN } ∧
    s.core.b2 = { b2Init with lastLevel := e.pinLevel (e.clock + 150) BTN2_PIN } := by
  unfold setup at hs
  simp only [bootSys, Core.boot, USE_BTN2, emit, delay, ledOff, ledWriteRaw, storeActivity,
    digitalRead, if_true] at hs
  split at hs
  · exact absurd hs (by simp)
  · injection hs with hs
    subst hs
    exact ⟨rfl, rfl⟩

/-- Events never outnumber inactive-to-active transitions by more than the one event an armed
channel already on an active level can still emit. -/
theorem countEvents_le_risingEdges (samples : List (Int × Nat)) :
    ∀ b : BtnDeb, countEvents b samples ≤
      risingEdges b.activeLow b.lastLevel samples +
        (if (b.armed && levelActive b.activeLow b.lastLevel) = true then 1 else 0) := by
  induction samples with
  | nil => intro b; simp [countEvents, eventTimes]
  | cons x rest ih =>
    intro b
    have hnext := ih (pressEventAt b x.1 x.2).2
    rw [pressEventAt_activeLow, pressEventAt_lastLevel, pressEventAt_armed] at hnext
    have hiff := pressEventAt_fires_iff b x.1 x.2
    simp only [countEvents, eventTimes, risingEdges] at hnext ⊢
    cases hf : (pressEventAt b x.1 x.2).1 with
    | true =>
      obtain ⟨hact, harm, _⟩ := hiff.1 hf
      rw [hf, hact] at hnext
      simp only [hact, harm, if_true, List.length_cons] at hnext ⊢
      cases hp : levelActive b.activeLow b.lastLevel <;> simp [hp] at hnext ⊢ <;> omega
    | false =>
      rw [hf] at hnext
      simp only [Bool.false_eq_true, if_false] at hnext ⊢
      cases hx : levelActive b.activeLow x.1 <;> cases ha : b.armed <;>
        cases hp : levelActive b.activeLow b.lastLevel <;>
        simp [hx, ha, hp] at hnext ⊢ <;> omega

/-- C7 (amended): starting from the channel state produced by `setup` (`lastLevel` = the level
read at boot, `lastFlip = 0`, `armed = true`), for every sequence of `pressEvent` samples the
number of press events is at most the number of inactive-to-active transitions observed (the
level read at setup counting as the starting level), plus one when the level read at setup was
already active; when it was inactive there is at most one press event per transition and none
without a transition. -/
theorem events_le_transitions (e : Env) (s : Sys) (samples : List (Int × Nat))
    (hs : setup (bootSys e) = some s) :
    s.core.b1 = { b1Init with lastLevel := digitalRead { e with clock := e.clock + 150 } BTN1_PIN } ∧
    s.core.b2 = { b2Init with lastLevel := digitalRead { e with clock := e.clock + 150 } BTN2_PIN } ∧
    s.core.b1.lastFlip = 0 ∧ s.core.b1.armed = true ∧
    s.core.b2.lastFlip = 0 ∧ s.core.b2.armed = true ∧
    countEvents s.core.b1 samples ≤
      risingEdges s.core.b1.activeLow s.core.b1.lastLevel samples +
        (if levelActive s.core.b1.activeLow s.core.b1.lastLevel = true then 1 else 0) ∧
    countEvents s.core.b2 samples ≤
      risingEdges s.core.b2.activeLow s.core.b2.lastLevel samples +
        (if levelActive s.core.b2.activeLow s.core.b2.lastLevel = true then 1 else 0) ∧
    (levelActive s.core.b1.activeLow s.core.b1.lastLevel = false →
      countEvents s.core.b1 samples ≤
        risingEdges s.core.b1.activeLow s.core.b1.lastLevel samples) ∧
    (levelActive s.core.b2.activeLow s.core.b2.lastLevel = false →
      countEvents s.core.b2 samples ≤
        risingEdges s.core.b2.activeLow s.core.b2.lastLevel samples) := by
  obtain ⟨h1, h2⟩ := setup_buttons e s hs
  have a1 : s.core.b1.armed = true := by rw [h1]; rfl
  have a2 : s.core.b2.armed = true := by rw [h2]; rfl
  have c1 := countEvents_le_risingEdges samples s.core.b1
  have c2 := countEvents_le_risingEdges samples s.core.b2
  rw [a1] at c1
  rw [a2] at c2
  simp only [Bool.true_and] at c1 c2
  refine ⟨h1, h2, by rw [h1]; rfl, a1, by rw [h2]; rfl, a2, c1, c2, ?_, ?_⟩
  · intro hin
    simpa [hin] using c1
  · intro hin
    simpa [hin] using c2

/-- Witness for C7: boot with both buttons released, then two presses of button 1. -/
theorem events_le_transitions_witness :
    setup (bootSys flakyEnv) = some flakyBooted ∧
    (flakyBooted.core.b1 =
      { b1Init with lastLevel := digitalRead { flakyEnv with clock := flakyEnv.clock + 150 } BTN1_PIN } ∧
    flakyBooted.core.b2 =
      { b2Init with lastLevel := digitalRead { flakyEnv with clock := flakyEnv.clock + 150 } BTN2_PIN } ∧
    flakyBooted.core.b1.lastFlip = 0 ∧
    flakyBooted.core.b1.armed = true ∧
    flakyBooted.core.b2.lastFlip = 0 ∧
    flakyBooted.core.b2.armed = true ∧
    countEvents flakyBooted.core.b1 twoPresses ≤
      risingEdges flakyBooted.core.b1.activeLow
        flakyBooted.core.b1.lastLevel twoPresses +
        (if levelActive flakyBooted.core.b1.activeLow
          flakyBooted.core.b1.lastLevel = true then 1 else 0) ∧
    countEvents flakyBooted.core.b2 twoPresses ≤
      risingEdges flakyBooted.core.b2.activeLow
        flakyBooted.core.b2.lastLevel twoPresses +
        (if levelActive flakyBooted.core.b2.activeLow
          flakyBooted.core.b2.lastLevel = true then 1 else 0) ∧
    (levelActive flakyBooted.core.b1.activeLow
        flakyBooted.core.b1.lastLevel = false →
      countEvents flakyBooted.core.b1 twoPresses ≤
        risingEdges flakyBooted.core.b1.activeLow
          flakyBooted.core.b1.lastLevel twoPresses) ∧
    (levelActive flakyBooted.core.b2.activeLow
        flakyBooted.core.b2.lastLevel = false →
      countEvents flakyBooted.core.b2 twoPresses ≤
        risingEdges flakyBooted.core.b2.activeLow
          flakyBooted.core.b2.lastLevel twoPresses)) :=
  ⟨rfl, events_le_transitions flakyEnv flakyBooted twoPresses rfl⟩

/-- C7 as stated fails: with button 1 held from power-on, `setup` reads the level active and
leaves the channel armed, and the first sample, with no transition observed, emits a press
event; the first `loop` iteration sends it. -/
theorem events_le_transitions_counterexample :
    setup (bootSys heldEnv) = some heldBooted ∧
    heldBooted.core.b1 = { b1Init with lastLevel := LOW } ∧
    millis heldBooted.env = 150 ∧
    nondecreasingFrom 0 [(LOW, 150)] = true ∧
    risingEdges heldBooted.core.b1.activeLow heldBooted.core.b1.lastLevel [(LOW, 150)] = 0 ∧
    countEvents heldBooted.core.b1 [(LOW, 150)] = 1 ∧
    ¬ (countEvents heldBooted.core.b1 [(LOW, 150)] ≤
        risingEdges heldBooted.core.b1.activeLow heldBooted.core.b1.lastLevel [(LOW, 150)]) ∧
    newTrace heldBooted (loop heldBooted) =
      [Effect.espNowSend [MSG_BTN, 1], Effect.logBtnSent 1, Effect.storeLastActivity 150,
       Effect.analogWrite LED_PIN 255, Effect.delay 1] :=
  ⟨rfl, by decide, by decide, by decide, by decide, by decide, by decide, by decide⟩

theorem activeDuration_cons_cons (al : Bool) (x y : Int × Nat) (rest : List (Int × Nat)) :
    activeDuration al (x :: y :: rest) =
      (if (levelActive al x.1 && levelActive al y.1) = true then y.2 - x.2 else 0) +
        activeDuration al (y :: rest) := by
  simp [activeDuration]

theorem activeDuration_tail_le (al : Bool) (x : Int × Nat) (rest : List (Int × Nat)) :
    activeDuration al rest ≤ activeDuration al (x :: rest) := by
  cases rest with
  | nil => simp [activeDuration]
  | cons y rest =>
    rw [activeDuration_cons_cons]
    omega

/-- Each event of a channel whose earlier active time is accounted for by `holdCredit` is paid
for by more than `DEBOUNCE_MS` of active time. -/
theorem countEvents_le_activeDuration_from (samples : List (Int × Nat)) :
    ∀ (b : BtnDeb) (t0 : Nat),
      (b.armed = true → levelActive b.activeLow b.lastLevel = true → b.lastFlip ≤ t0) →
      nondecreasingFrom t0 samples = true →
      40 * countEvents b samples ≤
        activeDuration b.activeLow ((b.lastLevel, t0) :: samples) + holdCredit b t0 := by
  induction samples with
  | nil => intro b t0 _ _; simp [countEvents, eventTimes]
  | cons x rest ih =>
    intro b t0 hJ hs
    rw [nondecreasingFrom_cons] at hs
    obtain ⟨hle, hlt, hrest⟩ := hs
    have hiff := pressEventAt_fires_iff b x.1 x.2
    have harm := pressEventAt_armed b x.1 x.2
    have hflip := pressEventAt_lastFlip b x.1 x.2
    have hJ2 : (pressEventAt b x.1 x.2).2.armed = true →
        levelActive (pressEventAt b x.1 x.2).2.activeLow (pressEventAt b x.1 x.2).2.lastLevel
          = true → (pressEventAt b x.1 x.2).2.lastFlip ≤ x.2 := by
      intro ha2 hl2
      rw [pressEventAt_activeLow, pressEventAt_lastLevel] at hl2
      rw [hflip]
      rcases flipTime_cases b x.1 x.2 with ⟨_, he⟩ | ⟨heq, he⟩ <;> rw [he]
      rw [harm, hl2] at ha2
      have hba : b.armed = true := by
        cases hb : b.armed with
        | true => rfl
        | false => rw [hb] at ha2; simp at ha2
      exact le_trans (hJ hba (by rw [← heq]; exact hl2)) hle
    have hnext := ih (pressEventAt b x.1 x.2).2 x.2 hJ2 hrest
    rw [pressEventAt_activeLow, pressEventAt_lastLevel,
      show ((x.1, x.2) : Int × Nat) = x from rfl] at hnext
    rw [activeDuration_cons_cons]
    simp only [holdCredit, pressEventAt_activeLow, pressEventAt_lastLevel, hflip] at hnext ⊢
    simp only [countEvents, eventTimes] at hnext ⊢
    cases hx : levelActive b.activeLow x.1 with
    | false =>
      have hno : (pressEventAt b x.1 x.2).1 = false := by
        cases hf : (pressEventAt b x.1 x.2).1 with
        | false => rfl
        | true => rw [(hiff.1 hf).1] at hx; exact absurd hx (by simp)
      rw [hno]
      simp only [hx, hno, Bool.and_false, Bool.false_eq_true, if_false] at hnext ⊢
      omega
    | true =>
      cases hp : levelActive b.activeLow b.lastLevel with
      | false =>
        have hne : x.1 ≠ b.lastLevel := by
          intro he
          rw [he, hp] at hx
          exact absurd hx (by simp)
        have hft : flipTime b x.1 x.2 = x.2 := by simp [flipTime, hne]
        have hno : (pressEventAt b x.1 x.2).1 = false := by
          cases hf : (pressEventAt b x.1 x.2).1 with
          | false => rfl
          | true =>
            have := (hiff.1 hf).2.2
            rw [hft, sub32_self] at this
            simp [DEBOUNCE_MS] at this
        rw [hno]
        simp only [hx, hft, Bool.and_true, Bool.and_false, Bool.false_and, Bool.false_eq_true,
          if_false, Nat.sub_self, ite_self] at hnext ⊢
        omega
      | true =>
        have heq : x.1 = b.lastLevel := levelActive_unique b.activeLow _ _ hx hp
        have hft : flipTime b x.1 x.2 = b.lastFlip := by simp [flipTime, heq]
        cases ha : b.armed with
        | false =>
          have hno := pressEventAt_unarmed b x.1 x.2 ha
          rw [hno]
          rw [harm, ha] at hnext
          simp only [hx, Bool.false_and, Bool.and_true, Bool.false_eq_true, if_false, if_true,
            Bool.true_and] at hnext ⊢
          omega
        | true =>
          have hlf : b.lastFlip ≤ t0 := hJ ha hp
          have hsub : sub32 x.2 b.lastFlip = x.2 - b.lastFlip :=
            sub32_of_le _ _ (le_trans hlf hle) hlt
          cases hf : (pressEventAt b x.1 x.2).1 with
          | true =>
            have h40 := (hiff.1 hf).2.2
            rw [hft, hsub] at h40
            simp only [DEBOUNCE_MS] at h40
            rw [harm, ha, hf] at hnext
            simp only [hx, hft, Bool.and_true, Bool.true_and, Bool.not_true, Bool.false_eq_true,
              if_false, if_true, List.length_cons] at hnext ⊢
            omega
          | false =>
            rw [harm, ha, hf] at hnext
            simp only [hx, hft, Bool.and_true, Bool.true_and, Bool.not_false,
              Bool.false_eq_true, if_false, if_true] at hnext ⊢
            omega

theorem countEvents_le_activeDuration (samples : List (Int × Nat)) :
    ∀ (b : BtnDeb) (t0 : Nat), nondecreasingFrom t0 samples = true →
      40 * countEvents b samples ≤ activeDuration b.activeLow samples + 40 := by
  induction samples with
  | nil => intro b t0 _; simp [countEvents, eventTimes]
  | cons x rest ih =>
    intro b t0 hs
    rw [nondecreasingFrom_cons] at hs
    obtain ⟨_, _, hrest⟩ := hs
    cases hf : (pressEventAt b x.1 x.2).1 with
    | true =>
      have hu := pressEventAt_fire_clears b x.1 x.2 hf
      have hnext := countEvents_le_activeDuration_from rest (pressEventAt b x.1 x.2).2 x.2
        (by intro ha; rw [hu] at ha; exact absurd ha (by simp)) hrest
      rw [pressEventAt_activeLow, pressEventAt_lastLevel,
        show ((x.1, x.2) : Int × Nat) = x from rfl] at hnext
      simp only [holdCredit, hu, Bool.false_and, Bool.false_eq_true, if_false] at hnext
      simp only [countEvents, eventTimes, hf, if_true, List.length_cons] at hnext ⊢
      omega
    | false =>
      have hnext := ih (pressEventAt b x.1 x.2).2 x.2 hrest
      rw [pressEventAt_activeLow] at hnext
      have hle := activeDuration_tail_le b.activeLow x rest
      simp only [countEvents, eventTimes, hf, Bool.false_eq_true, if_false] at hnext ⊢
      omega

/-- C8: for every sequence of `pressEvent` samples on one channel taken at non-decreasing
timestamps, the number of emitted press events never exceeds
`floor(totalActiveDuration / DEBOUNCE_MS) + 1`, where `totalActiveDuration` is the summed time
between consecutive samples that both read the level active and `DEBOUNCE_MS = 40`. -/
theorem events_le_active_duration (b : BtnDeb) (samples : List (Int × Nat))
    (hs : nondecreasingFrom 0 samples = true) :
    countEvents b samples ≤ activeDuration b.activeLow samples / DEBOUNCE_MS + 1 := by
  have h := countEvents_le_activeDuration samples b 0 hs
  simp only [DEBOUNCE_MS]
  omega

/-- Witness for C8: two presses of channel 1 give two events for 98 ms of active time. -/
theorem events_le_active_duration_witness :
    nondecreasingFrom 0 twoPresses = true ∧
    countEvents b1Init twoPresses = 2 ∧
    activeDuration b1Init.activeLow twoPresses = 98 ∧
    countEvents b1Init twoPresses ≤ activeDuration b1Init.activeLow twoPresses / DEBOUNCE_MS + 1 :=
  ⟨by decide, by decide, by decide, events_le_active_duration b1Init twoPresses (by decide)⟩

/-! ## Link monitor -/

theorem emit_core (x : Effect) (s : Sys) : (emit x s).core = s.core := rfl

theorem delay_core (ms : Nat) (s : Sys) : (delay ms s).core = s.core := rfl

theorem ledWriteRaw_core (v : Nat) (s : Sys) : (ledWriteRaw v s).core = s.core := rfl

theorem ledTask_core (s : Sys) : (ledTask s).core = s.core := by
  unfold ledTask showNoLinkDoubleBlink
  simp only [ledOn, ledOff, ledLinked]
  split_ifs <;> rfl

theorem sendPing_core (s : Sys) : (sendPing s).core = s.core := by
  unfold sendPing
  simp only [espNowSend]
  split_ifs <;> rfl

theorem lightSleepTick_core (us : Nat) (s : Sys) : (lightSleepTick us s).2.core = s.core := by
  simp only [lightSleepTick, enableGpioWakeLow_Light, USE_BTN2, if_true, emit_core]

theorem goToDeepSleep_core (s : Sys) : (goToDeepSleep s).core = s.core := by
  simp only [goToDeepSleep, enableGpioWakeLow_Deep, ledOff, USE_BTN2, if_true, emit_core,
    ledWriteRaw_core]

/-- The retry loop of `sendBtn` changes no global other than `lastActivityMs`. -/
theorem sendBtnLoop_core (id : Nat) (n : Nat) :
    ∀ (retry : Nat) (s : Sys),
      (sendBtnLoop id n retry s).core = s.core ∨
        ∃ v, (sendBtnLoop id n retry s).core = { s.core with lastActivityMs := v } := by
  induction n with
  | zero => intro retry s; left; rfl
  | succ n ih =>
    intro retry s
    simp only [sendBtnLoop]
    split_ifs with h1 h2
    · right; exact ⟨_, rfl⟩
    · exact ih _ _
    · exact ih _ _

theorem sendBtn_linked (id : Nat) (s : Sys) : (sendBtn id s).core.linked = s.core.linked := by
  rcases sendBtnLoop_core id MAX_RETRIES 0 s with h | ⟨v, h⟩ <;> simp only [sendBtn, h]

theorem sendBtn_lastAckMs (id : Nat) (s : Sys) :
    (sendBtn id s).core.lastAckMs = s.core.lastAckMs := by
  rcases sendBtnLoop_core id MAX_RETRIES 0 s with h | ⟨v, h⟩ <;> simp only [sendBtn, h]

theorem loopActive_link (now : Nat) (s : Sys) :
    (loopActive now s).core.linked = s.core.linked ∧
      (loopActive now s).core.lastAckMs = s.core.lastAckMs := by
  unfold loopActive
  simp only [delay_core, ledTask_core, USE_BTN2, if_true]
  split_ifs <;>
    simp only [sendPing_core, sendBtn_linked, sendBtn_lastAckMs, and_self]

theorem loopDrowsy_link (now : Nat) (s : Sys) :
    (loopDrowsy now s).core.linked = s.core.linked ∧
      (loopDrowsy now s).core.lastAckMs = s.core.lastAckMs := by
  simp only [loopDrowsy]
  split_ifs <;>
    simp only [sendBtn_linked, sendBtn_lastAckMs, delay_core, lightSleepTick_core,
      ledWriteRaw_core, and_self]

/-- One iteration of `loop` leaves `linked` as computed by its second statement and does not
touch `lastAckMs`. -/
theorem loop_link (s : Sys) :
    (loop s).core.linked = loopLinked (millis s.env) s.core.lastAckMs ∧
      (loop s).core.lastAckMs = s.core.lastAckMs := by
  rw [loop_unfold]
  split
  · exact loopActive_link _ _
  · exact loopDrowsy_link _ _
  · exact ⟨rfl, rfl⟩
  · exact ⟨rfl, rfl⟩

/-- C9: the `linked` status computed by `loop` at time `now`, the last Ack having been recorded
at time `lastAck`, is true exactly when `now - lastAck < 4000` in unsigned 32-bit subtraction;
exactly 4000 ms elapsed gives false and 3999 ms gives true. -/
theorem linked_iff_recent_ack (s : Sys) (now lastAck : Nat) :
    (loop s).core.linked = decide (sub32 (millis s.env) s.core.lastAckMs < 4000) ∧
    ((loop s).core.linked = true ↔ sub32 (millis s.env) s.core.lastAckMs < 4000) ∧
    (loop s).core.lastAckMs = s.core.lastAckMs ∧
    (onRecv (some [MSG_ACK]) 1 s).core.lastAckMs = millis s.env ∧
    (loopLinked now lastAck = true ↔ sub32 now lastAck < 4000) ∧
    loopLinked ((lastAck + 4000) % U32) lastAck = false ∧
    loopLinked ((lastAck + 3999) % U32) lastAck = true := by
  obtain ⟨h1, h2⟩ := loop_link s
  refine ⟨h1, ?_, h2, rfl, ?_, ?_, ?_⟩
  · rw [h1, loopLinked]
    simp
  · simp [loopLinked]
  · have : sub32 ((lastAck + 4000) % U32) lastAck = 4000 := by
      simp only [sub32, U32]
      omega
    simp [loopLinked, this]
  · have : sub32 ((lastAck + 3999) % U32) lastAck = 3999 := by
      simp only [sub32, U32]
      omega
    simp [loopLinked, this]

/-- C10, evaluated at boot: `lastAckMs` starts at 0, so with no datagram ever received the
first `loop` iteration, 150 ms after power-on, computes `linked = true`, and `linked` stays
true until the clock reaches 4000 ms. -/
theorem linked_at_boot_without_ack :
    Core.boot.lastAckMs = 0 ∧ Core.boot.linked = false ∧
    setup (bootSys (quietEnv 0)) = some quietBooted ∧
    quietBooted.core.lastAckMs = 0 ∧
    millis quietBooted.env = 150 ∧
    (loop quietBooted).core.linked = true ∧
    loopLinked 3999 Core.boot.lastAckMs = true ∧
    loopLinked 4000 Core.boot.lastAckMs = false :=
  ⟨rfl, rfl, rfl, by decide, by decide, by decide, by decide, by decide⟩

/-! ## Receive handler -/

theorem onRecv_ack (tl : List Nat) (s : Sys) :
    onRecv (some (MSG_ACK :: tl)) ((MSG_ACK :: tl).length : Int) s =
      { s with core := { s.core with lastAckMs := millis s.env } } := by
  simp only [onRecv, List.length_cons, List.head?_cons]
  rw [if_neg (by push_cast; omega), if_pos trivial]

theorem onRecv_other (l : List Nat) (len : Int) (s : Sys) (hl : l.head? ≠ some MSG_ACK) :
    onRecv (some l) len s = s := by
  simp only [onRecv]
  split_ifs <;> rfl

theorem head_ack_iff (bytes : List Nat) :
    bytes.head? = some MSG_ACK ↔ ∃ tl, bytes = MSG_ACK :: tl := by
  cases bytes with
  | nil => simp
  | cons a tl => simp [eq_comm]

/-- C12: for every received datagram, `onRecv` stores the current time into the last-ack
timestamp if and only if the datagram is non-empty and its first byte is the Ack tag `0xA1`;
in that case nothing else in the core state changes, and for every other datagram (empty,
null whatever its length, or with another first byte such as Ping `0xA0` or ButtonEvent
`0xB0`) the whole state, the last-ack timestamp included, is unchanged. -/
theorem onRecv_ack_only (bytes tl : List Nat) (len lenPos lenNonPos : Int) (s : Sys)
    (hpos : 0 < lenPos) (hlen : lenNonPos ≤ 0) :
    MSG_ACK = 0xA1 ∧
    (bytes.head? = some MSG_ACK ↔ ∃ r, bytes = MSG_ACK :: r) ∧
    (bytes.head? = some MSG_ACK →
      (onRecv (some bytes) (bytes.length : Int) s).core =
        { s.core with lastAckMs := millis s.env } ∧
      (onRecv (some bytes) (bytes.length : Int) s).env = s.env) ∧
    (bytes.head? = some MSG_ACK →
      onRecv (some bytes) lenPos s =
        { s with core := { s.core with lastAckMs := millis s.env } }) ∧
    (bytes.head? ≠ some MSG_ACK → onRecv (some bytes) (bytes.length : Int) s = s) ∧
    (bytes.head? ≠ some MSG_ACK → onRecv (some bytes) len s = s) ∧
    onRecv none len s = s ∧
    onRecv none lenPos s = s ∧
    onRecv none lenNonPos s = s ∧
    onRecv (some []) 0 s = s ∧
    onRecv (some []) len s = s ∧
    onRecv (some bytes) lenNonPos s = s ∧
    onRecv (some (MSG_PING :: tl)) ((MSG_PING :: tl).length : Int) s = s ∧
    onRecv (some (MSG_BTN :: tl)) ((MSG_BTN :: tl).length : Int) s = s ∧
    onRecv (some (MSG_PING :: tl)) len s = s ∧
    onRecv (some (MSG_BTN :: tl)) len s = s := by
  refine ⟨rfl, head_ack_iff bytes, ?_, ?_, onRecv_other bytes _ s, onRecv_other bytes len s,
    rfl, rfl, rfl, rfl, onRecv_other [] len s (by simp), ?_,
    onRecv_other _ _ s (by simp [MSG_PING, MSG_ACK]),
    onRecv_other _ _ s (by simp [MSG_BTN, MSG_ACK]),
    onRecv_other _ _ s (by simp [MSG_PING, MSG_ACK]),
    onRecv_other _ _ s (by simp [MSG_BTN, MSG_ACK])⟩
  · intro h
    obtain ⟨r, rfl⟩ := (head_ack_iff bytes).1 h
    rw [onRecv_ack]
    exact ⟨rfl, rfl⟩
  · intro h
    simp only [onRecv]
    rw [if_neg (by omega), if_pos h]
  · simp only [onRecv]
    rw [if_pos hlen]

/-- Witness for C12: an Ack datagram of two bytes, a null datagram of length 5, and a
non-positive length. -/
theorem onRecv_ack_only_witness :
    (0 : Int) < 5 ∧ (-1 : Int) ≤ 0 ∧
    (MSG_ACK = 0xA1 ∧
    ([MSG_ACK, 7].head? = some MSG_ACK ↔ ∃ r, [MSG_ACK, 7] = MSG_ACK :: r) ∧
    ([MSG_ACK, 7].head? = some MSG_ACK →
      (onRecv (some [MSG_ACK, 7]) (([MSG_ACK, 7] : List Nat).length : Int) flakySys).core =
        { flakySys.core with lastAckMs := millis flakySys.env } ∧
      (onRecv (some [MSG_ACK, 7]) (([MSG_ACK, 7] : List Nat).length : Int) flakySys).env =
        flakySys.env) ∧
    ([MSG_ACK, 7].head? = some MSG_ACK →
      onRecv (some [MSG_ACK, 7]) 5 flakySys =
        { flakySys with core := { flakySys.core with lastAckMs := millis flakySys.env } }) ∧
    ([MSG_ACK, 7].head? ≠ some MSG_ACK →
      onRecv (some [MSG_ACK, 7]) (([MSG_ACK, 7] : List Nat).length : Int) flakySys = flakySys) ∧
    ([MSG_ACK, 7].head? ≠ some MSG_ACK → onRecv (some [MSG_ACK, 7]) 2 flakySys = flakySys) ∧
    onRecv none 2 flakySys = flakySys ∧
    onRecv none 5 flakySys = flakySys ∧
    onRecv none (-1) flakySys = flakySys ∧
    onRecv (some []) 0 flakySys = flakySys ∧
    onRecv (some []) 2 flakySys = flakySys ∧
    onRecv (some [MSG_ACK, 7]) (-1) flakySys = flakySys ∧
    onRecv (some (MSG_PING :: [])) ((MSG_PING :: ([] : List Nat)).length : Int) flakySys
      = flakySys ∧
    onRecv (some (MSG_BTN :: [])) ((MSG_BTN :: ([] : List Nat)).length : Int) flakySys
      = flakySys ∧
    onRecv (some (MSG_PING :: [])) 2 flakySys = flakySys ∧
    onRecv (some (MSG_BTN :: [])) 2 flakySys = flakySys) :=
  ⟨by decide, by decide, onRecv_ack_only [MSG_ACK, 7] [] 2 5 (-1) flakySys (by decide) (by decide)⟩

/-! ## Breathing intensity -/

theorem breathVal_eq_triangle (now lastActivityMs : Nat) :
    breathVal now lastActivityMs = triangle (sub32 now lastActivityMs % 2000) := by
  have hlt : sub32 now lastActivityMs % 2000 < 2000 := Nat.mod_lt _ (by decide)
  have h2 : (2000 : Nat) / 2 = 1000 := rfl
  simp only [breathVal, triangle, BREATH_PERIOD_MS, BREATH_MAX_RAW, U32, h2]
  generalize sub32 now lastActivityMs % 2000 = t at hlt
  have small : ∀ x, x ≤ 2000 → 51 * x % 4294967296 / 1000 % 256 = 51 * x / 1000 := by
    intro x hx
    have h1 : 51 * x % 4294967296 = 51 * x := Nat.mod_eq_of_lt (by omega)
    have h3 : 51 * x / 1000 < 256 := by omega
    rw [h1, Nat.mod_eq_of_lt h3]
  split_ifs
  · exact small t (by omega)
  · exact small (2000 - t) (by omega)

theorem triangle_le (t : Nat) : triangle t ≤ 51 := by
  simp only [triangle]
  split_ifs <;> omega

theorem sub32_zero (t : Nat) (ht : t < U32) : sub32 t 0 = t := by
  simp only [sub32, U32] at *
  omega

/-- C13: the breathing intensity of the Drowsy branch, computed from
`t = idle mod BREATH_PERIOD_MS`, is 0 at `t = 0`, `BREATH_MAX_RAW = 51` at `t = 1000`, 0 again
when the idle time reaches `BREATH_PERIOD_MS`, and for every idle value lies in
`0..BREATH_MAX_RAW`, the 8-bit cast truncating nothing: it is `floor(51*t/1000)` for `t < 1000`
and `floor(51*(2000-t)/1000)` for `t ≥ 1000`. -/
theorem breath_intensity_values (now lastActivityMs : Nat) :
    breathVal now lastActivityMs =
      (if sub32 now lastActivityMs % BREATH_PERIOD_MS < 1000
        then 51 * (sub32 now lastActivityMs % BREATH_PERIOD_MS) / 1000
        else 51 * (2000 - sub32 now lastActivityMs % BREATH_PERIOD_MS) / 1000) ∧
    breathVal now lastActivityMs ≤ BREATH_MAX_RAW ∧
    BREATH_MAX_RAW = 51 ∧ BREATH_PERIOD_MS = 2000 ∧ BREATH_PERIOD_MS / 2 = 1000 ∧
    breathVal lastActivityMs lastActivityMs = 0 ∧
    breathVal ((lastActivityMs + BREATH_PERIOD_MS / 2) % U32) lastActivityMs = BREATH_MAX_RAW ∧
    breathVal ((lastActivityMs + BREATH_PERIOD_MS) % U32) lastActivityMs = 0 ∧
    breathVal 0 0 = 0 ∧ breathVal 1000 0 = 51 ∧ breathVal 2000 0 = 0 := by
  have h := breathVal_eq_triangle now lastActivityMs
  have e1 : sub32 ((lastActivityMs + 1000) % U32) lastActivityMs = 1000 := by
    simp only [sub32, U32]
    omega
  have e2 : sub32 ((lastActivityMs + 2000) % U32) lastActivityMs = 2000 := by
    simp only [sub32, U32]
    omega
  refine ⟨?_, ?_, rfl, rfl, rfl, ?_, ?_, ?_, by decide, by decide, by decide⟩
  · rw [h]
    rfl
  · rw [h]
    exact triangle_le _
  · rw [breathVal_eq_triangle, sub32_self]
    rfl
  · rw [breathVal_eq_triangle]
    simp only [BREATH_PERIOD_MS]
    rw [e1]
    rfl
  · rw [breathVal_eq_triangle]
    simp only [BREATH_PERIOD_MS]
    rw [e2]
    rfl

/-- C14: as a function of the phase `t` in `0..1999` the breathing intensity is a continuous
triangular wave: non-decreasing on `[0, 1000]`, non-increasing on `[1000, 1999]`, and the
intensities at two consecutive milliseconds differ by at most 1, also across the wrap from
`t = 1999` to `t = 0`. -/
theorem breath_triangular (t u : Nat) (htu : t ≤ u) (hu : u ≤ 1999) :
    (u ≤ 1000 → breathVal t 0 ≤ breathVal u 0) ∧
    (1000 ≤ t → breathVal u 0 ≤ breathVal t 0) ∧
    breathVal (t + 1) 0 ≤ breathVal t 0 + 1 ∧
    breathVal t 0 ≤ breathVal (t + 1) 0 + 1 ∧
    breathVal 1999 0 ≤ breathVal 0 0 + 1 ∧
    breathVal 0 0 ≤ breathVal 1999 0 + 1 ∧
    breathVal 2000 0 = breathVal 0 0 := by
  have ht : sub32 t 0 = t := sub32_zero t (by simp only [U32]; omega)
  have hu2 : sub32 u 0 = u := sub32_zero u (by simp only [U32]; omega)
  have ht1 : sub32 (t + 1) 0 = t + 1 := sub32_zero (t + 1) (by simp only [U32]; omega)
  rw [breathVal_eq_triangle t, breathVal_eq_triangle u, breathVal_eq_triangle (t + 1), ht, hu2,
    ht1]
  clear ht hu2 ht1
  have hm : ∀ x, x ≤ 1999 → triangle (x % 2000) = triangle x := by
    intro x hx
    rw [Nat.mod_eq_of_lt (by omega)]
  have hwrap : triangle ((t + 1) % 2000) ≤ triangle t + 1 ∧
      triangle t ≤ triangle ((t + 1) % 2000) + 1 := by
    rcases Nat.lt_or_ge t 1999 with h9 | h9
    · rw [hm (t + 1) (by omega)]
      simp only [triangle]
      split_ifs <;> omega
    · have : t = 1999 := by omega
      subst this
      decide
  rw [hm t (by omega), hm u hu]
  refine ⟨?_, ?_, ?_, ?_, by decide, by decide, by decide⟩
  · intro h
    simp only [triangle]
    split_ifs <;> omega
  · intro h
    simp only [triangle]
    split_ifs <;> omega
  · exact hwrap.1
  · exact hwrap.2

/-- Witness for C14: the phases 999 and 1000 on the rising half. -/
theorem breath_triangular_witness :
    999 ≤ 1000 ∧ 1000 ≤ 1999 ∧
    ((1000 ≤ 1000 → breathVal 999 0 ≤ breathVal 1000 0) ∧
    (1000 ≤ 999 → breathVal 1000 0 ≤ breathVal 999 0) ∧
    breathVal (999 + 1) 0 ≤ breathVal 999 0 + 1 ∧
    breathVal 999 0 ≤ breathVal (999 + 1) 0 + 1 ∧
    breathVal 1999 0 ≤ breathVal 0 0 + 1 ∧
    breathVal 0 0 ≤ breathVal 1999 0 + 1 ∧
    breathVal 2000 0 = breathVal 0 0) :=
  ⟨by decide, by decide, breath_triangular 999 1000 (by decide) (by decide)⟩

/-! ## Counter overflow -/

theorem sub32_elapsed (last d : Nat) (hd : d < U32) : sub32 ((last + d) % U32) last = d := by
  simp only [sub32, U32] at *
  omega

/-- C17: regime selection and link status tolerate overflow of the millisecond counter: for
every stored timestamp `last` and every true elapsed duration `d < 2^32` ms, with
`now = (last + d) mod 2^32`, the regime chosen by `loop` is the regime of `d` and `linked` is
`d < 4000`, whether or not the counter wrapped between `last` and `now`. -/
theorem overflow_tolerant (s : Sys) (last d dAct dAck : Nat) (hd : d < U32)
    (hAct : dAct < U32) (hAck : dAck < U32)
    (hnowAct : millis s.env = (s.core.lastActivityMs + dAct) % U32)
    (hnowAck : millis s.env = (s.core.lastAckMs + dAck) % U32) :
    loopRegime ((last + d) % U32) last = regimeOfIdle d ∧
    loopLinked ((last + d) % U32) last = decide (d < 4000) ∧
    loopRegime (millis s.env) s.core.lastActivityMs = regimeOfIdle dAct ∧
    (loop s).core.linked = decide (dAck < 4000) ∧
    (regimeOfIdle dAct = some Regime.Active →
      loop s = loopActive (millis s.env) (withLinked s)) ∧
    (regimeOfIdle dAct = some Regime.Drowsy →
      loop s = loopDrowsy (millis s.env) (withLinked s)) ∧
    (regimeOfIdle dAct = some Regime.Deep → loop s = goToDeepSleep (withLinked s)) := by
  have e1 : loopRegime (millis s.env) s.core.lastActivityMs = regimeOfIdle dAct := by
    rw [loopRegime, hnowAct, sub32_elapsed _ _ hAct]
  refine ⟨?_, ?_, e1, ?_, ?_, ?_, ?_⟩
  · rw [loopRegime, sub32_elapsed _ _ hd]
  · rw [loopLinked, sub32_elapsed _ _ hd]
  · rw [(loop_link s).1, loopLinked, hnowAck, sub32_elapsed _ _ hAck]
  · intro h
    rw [loop_unfold, e1, h]
  · intro h
    rw [loop_unfold, e1, h]
  · intro h
    rw [loop_unfold, e1, h]

/-- Witness for C17: last activity and last Ack 1000 ms before the counter wraps, 2000 ms
elapsed, so the counter reads 1000. -/
theorem overflow_tolerant_witness :
    2000 < U32 ∧ 2000 < U32 ∧ 2000 < U32 ∧
    millis wrappedSys.env = (wrappedSys.core.lastActivityMs + 2000) % U32 ∧
    millis wrappedSys.env = (wrappedSys.core.lastAckMs + 2000) % U32 ∧
    millis wrappedSys.env = 1000 ∧
    (loopRegime ((4294966296 + 2000) % U32) 4294966296 = regimeOfIdle 2000 ∧
    loopLinked ((4294966296 + 2000) % U32) 4294966296 = decide (2000 < 4000) ∧
    loopRegime (millis wrappedSys.env) wrappedSys.core.lastActivityMs = regimeOfIdle 2000 ∧
    (loop wrappedSys).core.linked = decide (2000 < 4000) ∧
    (regimeOfIdle 2000 = some Regime.Active →
      loop wrappedSys = loopActive (millis wrappedSys.env) (withLinked wrappedSys)) ∧
    (regimeOfIdle 2000 = some Regime.Drowsy →
      loop wrappedSys = loopDrowsy (millis wrappedSys.env) (withLinked wrappedSys)) ∧
    (regimeOfIdle 2000 = some Regime.Deep →
      loop wrappedSys = goToDeepSleep (withLinked wrappedSys))) :=
  ⟨by decide, by decide, by decide, by decide, by decide, by decide,
    overflow_tolerant wrappedSys 4294966296 2000 2000 2000 (by decide) (by decide) (by decide)
      (by decide) (by decide)⟩

/-! ## Indicator patterns -/

theorem showNoLinkDoubleBlink_eq (now : Nat) (s : Sys) :
    showNoLinkDoubleBlink now s = emit (Effect.analogWrite LED_PIN (blinkValue now)) s := by
  simp only [showNoLinkDoubleBlink, blinkValue, ledOn, ledOff, ledWriteRaw, LED_ACTIVE_LOW,
    Bool.false_eq_true, if_false]
  split_ifs <;> first | rfl | omega

/-- C19: for every time `now` the not-linked double-blink pattern depends only on
`t = now mod 2000` and is two short full-intensity pulses, then off: the indicator is written
with 255 exactly when `t` is in `[0,120)` or `[240,360)`, and with 0 for `t` in `[120,240)`
and `[360,2000)`. -/
theorem double_blink_pattern (now : Nat) (s : Sys) :
    showNoLinkDoubleBlink now s =
      emit (Effect.analogWrite LED_PIN
        (if now % 2000 < 120 ∨ (240 ≤ now % 2000 ∧ now % 2000 < 360) then 255 else 0)) s ∧
    showNoLinkDoubleBlink now s = showNoLinkDoubleBlink (now % 2000) s ∧
    newTrace s (showNoLinkDoubleBlink now s) = [Effect.analogWrite LED_PIN (blinkValue now)] ∧
    (showNoLinkDoubleBlink now s).core = s.core ∧
    (blinkValue now = 255 ↔ now % 2000 < 120 ∨ (240 ≤ now % 2000 ∧ now % 2000 < 360)) ∧
    (blinkValue now = 0 ↔
      (120 ≤ now % 2000 ∧ now % 2000 < 240) ∨ (360 ≤ now % 2000 ∧ now % 2000 < 2000)) ∧
    (blinkValue now = 255 ∨ blinkValue now = 0) := by
  have hlt : now % 2000 < 2000 := Nat.mod_lt _ (by decide)
  refine ⟨showNoLinkDoubleBlink_eq now s, ?_, ?_, ?_, ?_, ?_, ?_⟩
  · rw [showNoLinkDoubleBlink_eq, showNoLinkDoubleBlink_eq]
    simp only [blinkValue, Nat.mod_mod]
  · rw [showNoLinkDoubleBlink_eq]
    simp [newTrace, emit]
  · rw [showNoLinkDoubleBlink_eq]
    rfl
  · simp only [blinkValue]
    split_ifs with h <;> simp [h]
  · simp only [blinkValue]
    split_ifs with h
    · simp only [OfNat.ofNat_ne_zero, false_iff]
      omega
    · simp only [true_iff]
      omega
  · simp only [blinkValue]
    split_ifs <;> simp

/-! ## Frames -/

theorem Frame.of_same (P : Effect → Bool) (s1 s2 : Sys) (ht : s2.env.trace = s1.env.trace)
    (ha : s2.core.lastActivityMs = s1.core.lastActivityMs) : Frame P s1 s2 :=
  ⟨[], by simp [ht], rfl, fun _ => ha⟩

theorem Frame.trans (P : Effect → Bool) (s1 s2 s3 : Sys) (h12 : Frame P s1 s2)
    (h23 : Frame P s2 s3) : Frame P s1 s3 := by
  obtain ⟨l1, t1, p1, a1⟩ := h12
  obtain ⟨l2, t2, p2, a2⟩ := h23
  refine ⟨l1 ++ l2, by rw [t2, t1, List.append_assoc], ?_, ?_⟩
  · rw [List.all_append, p1, p2]
    rfl
  · intro h
    rw [List.any_append, Bool.or_eq_false_iff] at h
    rw [a2 h.2, a1 h.1]

theorem Frame.mono (P Q : Effect → Bool) (s1 s2 : Sys) (hPQ : ∀ x, P x = true → Q x = true)
    (h : Frame P s1 s2) : Frame Q s1 s2 := by
  obtain ⟨l, t, p, a⟩ := h
  refine ⟨l, t, ?_, a⟩
  rw [List.all_eq_true] at p ⊢
  exact fun x hx => hPQ x (p x hx)

theorem Frame.trace_eq (P : Effect → Bool) (s1 s2 : Sys) (h : Frame P s1 s2) :
    s2.env.trace = s1.env.trace ++ newTrace s1 s2 ∧ (newTrace s1 s2).all P = true ∧
      ((newTrace s1 s2).any isBtnSentLog = false →
        s2.core.lastActivityMs = s1.core.lastActivityMs) := by
  obtain ⟨l, t, p, a⟩ := h
  have : newTrace s1 s2 = l := by simp [newTrace, t]
  rw [this]
  exact ⟨t, p, a⟩

theorem frame_emit (P : Effect → Bool) (x : Effect) (s : Sys) (hx : P x = true) :
    Frame P s (emit x s) :=
  ⟨[x], rfl, by simp [hx], fun _ => rfl⟩

theorem frame_delay (P : Effect → Bool) (ms : Nat) (s : Sys) (hx : P (Effect.delay ms) = true) :
    Frame P s (delay ms s) :=
  ⟨[Effect.delay ms], rfl, by simp [hx], fun _ => rfl⟩

/-- One `sendBtn id` only makes sender calls for `id`, reports exactly once, and leaves
`lastActivityMs` alone unless it reports success. -/
theorem sendBtn_trace (id : Nat) (s : Sys) :
    ∃ l, (sendBtn id s).env.trace = s.env.trace ++ l ∧ l.all (isSenderEffect id) = true ∧
      btnReports l = [id] ∧
      (l.any isBtnSentLog = false → (sendBtn id s).core = s.core) ∧
      (l.any isBtnSentLog = true →
        (sendBtn id s).core.lastActivityMs = millis (sendBtn id s).env) := by
  by_cases h0 : s.env.txResult s.env.txCalls = true
  · rw [sendBtn_first_ok id s h0]
    exact ⟨_, rfl, by simp [isSenderEffect], by simp [btnReports], by simp [isBtnSentLog],
      by simp [millis]⟩
  by_cases h1 : s.env.txResult (s.env.txCalls + 1) = true
  · rw [sendBtn_second_ok id s (by simpa using h0) h1]
    exact ⟨_, rfl, by simp [isSenderEffect, RETRY_DELAY_MS], by simp [btnReports],
      by simp [isBtnSentLog], by simp [millis]⟩
  by_cases h2 : s.env.txResult (s.env.txCalls + 2) = true
  · rw [sendBtn_third_ok id s (by simpa using h0) (by simpa using h1) h2]
    exact ⟨_, rfl, by simp [isSenderEffect, RETRY_DELAY_MS], by simp [btnReports],
      by simp [isBtnSentLog], by simp [millis]⟩
  · rw [sendBtn_all_fail id s (by simpa using h0) (by simpa using h1) (by simpa using h2)]
    exact ⟨_, rfl, by simp [isSenderEffect, RETRY_DELAY_MS], by simp [btnReports],
      by simp [isBtnSentLog], by simp [isBtnSentLog]⟩

theorem frame_sendBtn (id : Nat) (s : Sys) : Frame (isSenderEffect id) s (sendBtn id s) := by
  obtain ⟨l, t, p, _, a, _⟩ := sendBtn_trace id s
  exact ⟨l, t, p, fun h => by rw [a h]⟩

theorem frame_sendPing (s : Sys) : Frame isPingEffect s (sendPing s) := by
  simp only [sendPing, espNowSend]
  split_ifs
  · exact ⟨[Effect.espNowSend [MSG_PING]], rfl, by simp [isPingEffect], fun _ => rfl⟩
  · exact ⟨[Effect.espNowSend [MSG_PING], Effect.logPingFailed],
      by simp [emit], by simp [isPingEffect], fun _ => rfl⟩

theorem ledTask_eq (s : Sys) :
    ledTask s = emit (Effect.analogWrite LED_PIN
      (indicatorValue (anyButtonActive s.env) s.core.linked (millis s.env))) s := by
  simp only [ledTask, indicatorValue, anyButtonActive, USE_BTN2, Bool.true_and]
  split_ifs
  · rfl
  · rfl
  · exact showNoLinkDoubleBlink_eq _ _

theorem frame_ledTask (s : Sys) : Frame isLedWrite s (ledTask s) := by
  rw [ledTask_eq]
  exact frame_emit _ _ _ rfl

theorem Frame.then_sendBtn (P : Effect → Bool) (id : Nat)
    (hP : ∀ x, isSenderEffect id x = true → P x = true) (s a : Sys) (c : Prop) [Decidable c]
    (h : Frame P s a) : Frame P s (if c then sendBtn id a else a) := by
  split_ifs
  · exact Frame.trans P _ _ _ h (Frame.mono _ _ _ _ hP (frame_sendBtn id a))
  · exact h

theorem Frame.then_core (P : Effect → Bool) (s a : Sys) (c : Core)
    (hc : c.lastActivityMs = a.core.lastActivityMs) (h : Frame P s a) :
    Frame P s { core := c, env := a.env } :=
  Frame.trans P _ _ _ h (Frame.of_same P _ _ rfl hc)

theorem Frame.then_sendPing (P : Effect → Bool) (hP : ∀ x, isPingEffect x = true → P x = true)
    (s a : Sys) (h : Frame P s a) : Frame P s (sendPing a) :=
  Frame.trans P _ _ _ h (Frame.mono _ _ _ _ hP (frame_sendPing a))

theorem isRadioEffect_of_sender1 (x : Effect) (h : isSenderEffect 1 x = true) :
    isRadioEffect x = true := by
  simp [isRadioEffect, h]

theorem isRadioEffect_of_sender2 (x : Effect) (h : isSenderEffect 2 x = true) :
    isRadioEffect x = true := by
  simp [isRadioEffect, h]

theorem isRadioEffect_of_ping (x : Effect) (h : isPingEffect x = true) :
    isRadioEffect x = true := by
  simp [isRadioEffect, h]

/-- The sending part of an Active iteration only makes radio calls. -/
theorem frame_activeBeforeLed (now : Nat) (s : Sys) :
    Frame isRadioEffect s (activeBeforeLed now s) := by
  simp only [activeBeforeLed, USE_BTN2, if_true]
  have f1 : Frame isRadioEffect s
      { core := { s.core with b1 := (pressEvent s.core.b1 s.env).2 }, env := s.env } :=
    Frame.of_same _ _ _ rfl rfl
  have f2 := Frame.then_sendBtn isRadioEffect 1 isRadioEffect_of_sender1 s _
    ((pressEvent s.core.b1 s.env).1 = true) f1
  generalize (if (pressEvent s.core.b1 s.env).1 = true then
    sendBtn 1 { core := { s.core with b1 := (pressEvent s.core.b1 s.env).2 }, env := s.env }
    else { core := { s.core with b1 := (pressEvent s.core.b1 s.env).2 }, env := s.env }) = s2
    at f2 ⊢
  have f3 : Frame isRadioEffect s
      { core := { s2.core with b2 := (pressEvent s2.core.b2 s2.env).2 }, env := s2.env } :=
    Frame.then_core _ _ _ _ rfl f2
  have f4 := Frame.then_sendBtn isRadioEffect 2 isRadioEffect_of_sender2 s _
    ((pressEvent s2.core.b2 s2.env).1 = true) f3
  generalize (if (pressEvent s2.core.b2 s2.env).1 = true then
    sendBtn 2 { core := { s2.core with b2 := (pressEvent s2.core.b2 s2.env).2 }, env := s2.env }
    else { core := { s2.core with b2 := (pressEvent s2.core.b2 s2.env).2 }, env := s2.env }) = s4
    at f4 ⊢
  split_ifs
  · exact Frame.then_sendPing _ isRadioEffect_of_ping _ _ (Frame.then_core _ _ _ _ rfl f4)
  · exact f4

theorem loopActive_eq (now : Nat) (s : Sys) :
    loopActive now s = delay 1 (ledTask (activeBeforeLed now s)) := rfl

theorem frame_loopActive (now : Nat) (s : Sys) : Frame anyEffect s (loopActive now s) := by
  rw [loopActive_eq]
  refine Frame.trans _ _ _ _ (Frame.mono _ _ _ _ (fun _ _ => rfl) (frame_activeBeforeLed now s)) ?_
  refine Frame.trans _ _ _ _ (Frame.mono _ _ _ _ (fun _ _ => rfl) (frame_ledTask _)) ?_
  exact frame_delay _ _ _ rfl

theorem lightSleepTick_trace (s : Sys) :
    (lightSleepTick 500000 s).2.env.trace = s.env.trace ++ sleepPrelude := by
  simp [lightSleepTick, enableGpioWakeLow_Light, emit, USE_BTN2, sleepPrelude]

theorem ledWriteRaw_breath (now : Nat) (s : Sys) :
    ledWriteRaw (breathVal now s.core.lastActivityMs) s =
      emit (Effect.analogWrite LED_PIN (breathVal now s.core.lastActivityMs)) s := by
  have h : breathVal now s.core.lastActivityMs % 256 = breathVal now s.core.lastActivityMs := by
    have := triangle_le (sub32 now s.core.lastActivityMs % 2000)
    rw [← breathVal_eq_triangle] at this
    omega
  simp only [ledWriteRaw, LED_ACTIVE_LOW, Bool.false_eq_true, if_false, h]

theorem loopDrowsy_btn1 (now : Nat) (s : Sys) (h1 : isBtnActive s.env BTN1_PIN = true) :
    loopDrowsy now s = sendBtn 1 s := by
  simp only [loopDrowsy, h1, if_true]

theorem loopDrowsy_btn2 (now : Nat) (s : Sys) (h1 : isBtnActive s.env BTN1_PIN = false)
    (h2 : isBtnActive s.env BTN2_PIN = true) : loopDrowsy now s = sendBtn 2 s := by
  simp only [loopDrowsy, h1, h2, USE_BTN2, Bool.and_self, Bool.false_eq_true, if_false, if_true]

theorem isWakeEffect_of_sender1 (x : Effect) (h : isSenderEffect 1 x = true) :
    isWakeEffect x = true := by
  simp [isWakeEffect, h]

theorem isWakeEffect_of_sender2 (x : Effect) (h : isSenderEffect 2 x = true) :
    isWakeEffect x = true := by
  simp [isWakeEffect, h]

/-- What a Drowsy iteration does after resuming from light sleep: nothing on a timer wake;
on a GPIO wake a 20 ms settle delay and at most one `sendBtn`. -/
theorem frame_afterWake (cause : WakeCause) (a : Sys) :
    Frame isWakeEffect a
      (if cause = WakeCause.gpioWake then
        (if isBtnActive (delay 20 a).env BTN1_PIN = true then sendBtn 1 (delay 20 a)
         else if (USE_BTN2 && isBtnActive (delay 20 a).env BTN2_PIN) = true then
           sendBtn 2 (delay 20 a)
         else delay 20 a)
       else a) := by
  have fd : Frame isWakeEffect a (delay 20 a) := frame_delay _ _ _ (by simp [isWakeEffect])
  split_ifs
  · exact Frame.trans _ _ _ _ fd
      (Frame.mono _ _ _ _ isWakeEffect_of_sender1 (frame_sendBtn 1 _))
  · exact Frame.trans _ _ _ _ fd
      (Frame.mono _ _ _ _ isWakeEffect_of_sender2 (frame_sendBtn 2 _))
  · exact fd
  · exact Frame.of_same _ _ _ rfl rfl

/-- A Drowsy iteration with no button active: the breathing write, the sleep prelude, then
whatever follows the wake. -/
theorem loopDrowsy_idle (now : Nat) (s : Sys) (h1 : isBtnActive s.env BTN1_PIN = false)
    (h2 : isBtnActive s.env BTN2_PIN = false) :
    ∃ l, (loopDrowsy now s).env.trace =
        s.env.trace ++
          (Effect.analogWrite LED_PIN (breathVal now s.core.lastActivityMs) :: sleepPrelude) ++ l ∧
      l.all isWakeEffect = true ∧
      (l.any isBtnSentLog = false →
        (loopDrowsy now s).core.lastActivityMs = s.core.lastActivityMs) := by
  simp only [loopDrowsy, h1, h2, Bool.and_false, Bool.false_eq_true, if_false]
  rw [ledWriteRaw_breath]
  obtain ⟨l, t, p, a⟩ := frame_afterWake
    (lightSleepTick 500000
      (emit (Effect.analogWrite LED_PIN (breathVal now s.core.lastActivityMs)) s)).1
    (lightSleepTick 500000
      (emit (Effect.analogWrite LED_PIN (breathVal now s.core.lastActivityMs)) s)).2
  refine ⟨l, ?_, p, ?_⟩
  · rw [t, lightSleepTick_trace]
    simp [emit]
  · intro h
    rw [a h, lightSleepTick_core]
    rfl

theorem frame_loopDrowsy (now : Nat) (s : Sys) : Frame anyEffect s (loopDrowsy now s) := by
  cases h1 : isBtnActive s.env BTN1_PIN with
  | true =>
    rw [loopDrowsy_btn1 now s h1]
    exact Frame.mono _ _ _ _ (fun _ _ => rfl) (frame_sendBtn 1 s)
  | false =>
    cases h2 : isBtnActive s.env BTN2_PIN with
    | true =>
      rw [loopDrowsy_btn2 now s h1 h2]
      exact Frame.mono _ _ _ _ (fun _ _ => rfl) (frame_sendBtn 2 s)
    | false =>
      obtain ⟨l, t, _, a⟩ := loopDrowsy_idle now s h1 h2
      refine ⟨(Effect.analogWrite LED_PIN (breathVal now s.core.lastActivityMs) :: sleepPrelude)
        ++ l, by rw [t, List.append_assoc], by simp [anyEffect], ?_⟩
      intro h
      rw [List.any_append, Bool.or_eq_false_iff] at h
      exact a h.2

theorem goToDeepSleep_trace (s : Sys) :
    (goToDeepSleep s).env.trace =
      s.env.trace ++ [Effect.logDeepSleep, Effect.analogWrite LED_PIN 0,
        Effect.pinModeInputPullup BTN1_PIN, Effect.pinModeInputPullup BTN2_PIN,
        Effect.deepSleepDisableRomLogging, Effect.deepSleepEnableGpioWakeupLow gpioWakeMask,
        Effect.deepSleepStart] := by
  simp [goToDeepSleep, enableGpioWakeLow_Deep, ledOff, ledWriteRaw, LED_ACTIVE_LOW, emit,
    USE_BTN2]

theorem frame_goToDeepSleep (s : Sys) : Frame anyEffect s (goToDeepSleep s) :=
  ⟨_, goToDeepSleep_trace s, by simp [anyEffect], fun _ => by rw [goToDeepSleep_core]⟩

/-- One `loop` iteration keeps `lastActivityMs` unless one of its `sendBtn` calls reports
success. -/
theorem frame_loop (s : Sys) : Frame anyEffect s (loop s) := by
  have f0 : Frame anyEffect s (withLinked s) := Frame.of_same _ _ _ rfl rfl
  rw [loop_unfold]
  split
  · exact Frame.trans _ _ _ _ f0 (frame_loopActive _ _)
  · exact Frame.trans _ _ _ _ f0 (frame_loopDrowsy _ _)
  · exact Frame.trans _ _ _ _ f0 (frame_goToDeepSleep _)
  · exact f0

theorem onRecv_frame (data : Option (List Nat)) (len : Int) (s : Sys) :
    (onRecv data len s).env = s.env ∧
      (onRecv data len s).core.lastActivityMs = s.core.lastActivityMs := by
  cases data with
  | none => exact ⟨rfl, rfl⟩
  | some bytes =>
    simp only [onRecv]
    split_ifs <;> exact ⟨rfl, rfl⟩

theorem frame_step (x : Step) (s : Sys) : Frame anyEffect s (step x s) := by
  cases x with
  | tick =>
    simp only [step]
    split_ifs
    · exact Frame.of_same _ _ _ rfl rfl
    · exact frame_loop s
  | recv data len =>
    have h := onRecv_frame data len s
    exact Frame.of_same _ _ _ (by rw [step, h.1]) h.2

theorem frame_run (steps : List Step) : ∀ s : Sys, Frame anyEffect s (run steps s) := by
  induction steps with
  | nil => intro s; exact Frame.of_same _ _ _ rfl rfl
  | cons x rest ih =>
    intro s
    exact Frame.trans _ _ _ _ (frame_step x s) (ih (step x s))

/-! ## Activity timer -/

theorem sendPing_no_store (s : Sys) : activityStores (newTrace s (sendPing s)) = [] := by
  simp only [sendPing, espNowSend]
  split_ifs <;> simp [newTrace, emit, activityStores]

theorem mem_of_any_isBtnSentLog (l : List Effect) (h : l.any isBtnSentLog = true) :
    ∃ id, Effect.logBtnSent id ∈ l := by
  rw [List.any_eq_true] at h
  obtain ⟨x, hx, hp⟩ := h
  cases x <;> simp [isBtnSentLog] at hp
  exact ⟨_, hx⟩

/-- C11: heartbeat traffic never changes the ActivityTimer. For every state and every
transport outcome `sendPing` leaves `lastActivityMs` (and the whole core state) unchanged;
`onRecv`, for every datagram, leaves `lastActivityMs` unchanged; and across one `loop`
iteration `lastActivityMs` changes only if a `sendBtn` call of that iteration succeeded, that
is, only if its `- sent` report is in the calls of the iteration. -/
theorem heartbeat_keeps_activity (s : Sys) (data : Option (List Nat)) (len : Int) :
    (sendPing s).core = s.core ∧
    (sendPing s).core.lastActivityMs = s.core.lastActivityMs ∧
    activityStores (newTrace s (sendPing s)) = [] ∧
    (newTrace s (sendPing s)).all isPingEffect = true ∧
    (onRecv data len s).core.lastActivityMs = s.core.lastActivityMs ∧
    (onRecv data len s).env = s.env ∧
    ((newTrace s (loop s)).any isBtnSentLog = false →
      (loop s).core.lastActivityMs = s.core.lastActivityMs) ∧
    ((loop s).core.lastActivityMs ≠ s.core.lastActivityMs →
      ∃ id, Effect.logBtnSent id ∈ newTrace s (loop s)) := by
  have hf := (Frame.trace_eq _ _ _ (frame_loop s)).2.2
  refine ⟨sendPing_core s, by rw [sendPing_core], sendPing_no_store s,
    (Frame.trace_eq _ _ _ (frame_sendPing s)).2.1, (onRecv_frame data len s).2,
    (onRecv_frame data len s).1, hf, ?_⟩
  intro hne
  cases h : (newTrace s (loop s)).any isBtnSentLog with
  | false => exact absurd (hf h) hne
  | true => exact mem_of_any_isBtnSentLog _ h

/-- Witness for C11: the first iteration after boot with button 1 held, which sends the press
and stores the time, and an Ack datagram. -/
theorem heartbeat_keeps_activity_witness :
    (loop heldBooted).core.lastActivityMs = 150 ∧
    ((sendPing heldBooted).core = heldBooted.core ∧
    (sendPing heldBooted).core.lastActivityMs = heldBooted.core.lastActivityMs ∧
    activityStores (newTrace heldBooted (sendPing heldBooted)) = [] ∧
    (newTrace heldBooted (sendPing heldBooted)).all isPingEffect = true ∧
    (onRecv (some [MSG_ACK]) 1 heldBooted).core.lastActivityMs =
      heldBooted.core.lastActivityMs ∧
    (onRecv (some [MSG_ACK]) 1 heldBooted).env = heldBooted.env ∧
    ((newTrace heldBooted (loop heldBooted)).any isBtnSentLog = false →
      (loop heldBooted).core.lastActivityMs = heldBooted.core.lastActivityMs) ∧
    ((loop heldBooted).core.lastActivityMs ≠ heldBooted.core.lastActivityMs →
      ∃ id, Effect.logBtnSent id ∈ newTrace heldBooted (loop heldBooted))) :=
  ⟨by decide, heartbeat_keeps_activity heldBooted (some [MSG_ACK]) 1⟩

/-! ## Indicator in the Active regime -/

theorem activeBeforeLed_linked (now : Nat) (s : Sys) :
    (activeBeforeLed now s).core.linked = s.core.linked := by
  have h := (loopActive_link now s).1
  rw [loopActive_eq, delay_core, ledTask_core] at h
  exact h

theorem filter_isLedWrite_of_all (P : Effect → Bool) (l : List Effect)
    (hP : ∀ x, P x = true → isLedWrite x = false) (h : l.all P = true) :
    l.any isLedWrite = false := by
  rw [List.all_eq_true] at h
  rw [List.any_eq_false]
  intro x hx
  rw [hP x (h x hx)]
  simp

theorem isRadioEffect_not_led (x : Effect) (h : isRadioEffect x = true) :
    isLedWrite x = false := by
  cases x <;> simp [isRadioEffect, isSenderEffect, isPingEffect, isLedWrite] at h ⊢

/-- C15: in every Active-regime iteration the indicator is written once, after every
press-driven send of the iteration, with a value that is a pure function of
`(anyLocalButtonActive, linked, now)` as `ledTask` reads them: 255 if any button is
instantaneously active, whatever `linked` is; otherwise 64 if linked; otherwise the
double-blink pattern value for `now`. -/
theorem active_indicator (s : Sys) (anyActive linked : Bool) (now : Nat)
    (hact : sub32 (millis s.env) s.core.lastActivityMs < IDLE_LIGHT_MS) :
    loop s = delay 1 (ledTask (activeSent s)) ∧
    newTrace s (loop s) =
      newTrace s (activeSent s) ++
        [Effect.analogWrite LED_PIN
          (indicatorValue (anyButtonActive (activeSent s).env)
            (loopLinked (millis s.env) s.core.lastAckMs) (millis (activeSent s).env)),
         Effect.delay 1] ∧
    (newTrace s (activeSent s)).all isRadioEffect = true ∧
    (newTrace s (activeSent s)).any isLedWrite = false ∧
    (activeSent s).core.linked = loopLinked (millis s.env) s.core.lastAckMs ∧
    ledTask (activeSent s) =
      emit (Effect.analogWrite LED_PIN
        (indicatorValue (anyButtonActive (activeSent s).env) (activeSent s).core.linked
          (millis (activeSent s).env))) (activeSent s) ∧
    indicatorValue true linked now = 255 ∧
    indicatorValue false true now = 64 ∧
    indicatorValue false false now = blinkValue now ∧
    (indicatorValue anyActive linked now =
      if anyActive = true then 255 else if linked = true then 64
      else if now % 2000 < 120 ∨ (240 ≤ now % 2000 ∧ now % 2000 < 360) then 255 else 0) := by
  have hloop : loop s = delay 1 (ledTask (activeSent s)) := by
    rw [loop_unfold, loopRegime, (regimeOfIdle_active _).2 (by simpa [IDLE_LIGHT_MS] using hact)]
    rfl
  have hfr : Frame isRadioEffect s (activeSent s) :=
    Frame.trans _ _ _ _ (Frame.of_same _ _ _ rfl rfl) (frame_activeBeforeLed _ (withLinked s))
  obtain ⟨ht, hall, _⟩ := Frame.trace_eq _ _ _ hfr
  have hlink : (activeSent s).core.linked = loopLinked (millis s.env) s.core.lastAckMs := by
    rw [activeSent, activeBeforeLed_linked]
    rfl
  refine ⟨hloop, ?_, hall, filter_isLedWrite_of_all _ _ isRadioEffect_not_led hall, hlink,
    ledTask_eq _, rfl, rfl, rfl, ?_⟩
  · rw [hloop, ledTask_eq, hlink]
    simp only [newTrace, delay, emit]
    rw [ht]
    simp [newTrace]
  · simp only [indicatorValue, blinkValue]

/-- Witness for C15: the first iteration after boot with button 1 held. -/
theorem active_indicator_witness :
    sub32 (millis heldBooted.env) heldBooted.core.lastActivityMs < IDLE_LIGHT_MS ∧
    newTrace heldBooted (loop heldBooted) =
      [Effect.espNowSend [MSG_BTN, 1], Effect.logBtnSent 1, Effect.storeLastActivity 150,
       Effect.analogWrite LED_PIN 255, Effect.delay 1] ∧
    (loop heldBooted = delay 1 (ledTask (activeSent heldBooted)) ∧
    newTrace heldBooted (loop heldBooted) =
      newTrace heldBooted (activeSent heldBooted) ++
        [Effect.analogWrite LED_PIN
          (indicatorValue (anyButtonActive (activeSent heldBooted).env)
            (loopLinked (millis heldBooted.env) heldBooted.core.lastAckMs)
            (millis (activeSent heldBooted).env)),
         Effect.delay 1] ∧
    (newTrace heldBooted (activeSent heldBooted)).all isRadioEffect = true ∧
    (newTrace heldBooted (activeSent heldBooted)).any isLedWrite = false ∧
    (activeSent heldBooted).core.linked =
      loopLinked (millis heldBooted.env) heldBooted.core.lastAckMs ∧
    ledTask (activeSent heldBooted) =
      emit (Effect.analogWrite LED_PIN
        (indicatorValue (anyButtonActive (activeSent heldBooted).env)
          (activeSent heldBooted).core.linked
          (millis (activeSent heldBooted).env))) (activeSent heldBooted) ∧
    indicatorValue true false 500 = 255 ∧
    indicatorValue false true 500 = 64 ∧
    indicatorValue false false 500 = blinkValue 500 ∧
    (indicatorValue false false 500 =
      if false = true then 255 else if false = true then 64
      else if 500 % 2000 < 120 ∨ (240 ≤ 500 % 2000 ∧ 500 % 2000 < 360) then 255 else 0)) :=
  ⟨by decide, by decide, active_indicator heldBooted false false 500 (by decide)⟩

/-! ## Drowsy regime -/

theorem any_false_of_all (P Q : Effect → Bool) (l : List Effect)
    (hPQ : ∀ x, P x = true → Q x = false) (h : l.all P = true) : l.any Q = false := by
  rw [List.all_eq_true] at h
  rw [List.any_eq_false]
  intro x hx
  rw [hPQ x (h x hx)]
  simp

theorem isSenderEffect_not_led (id : Nat) (x : Effect) (h : isSenderEffect id x = true) :
    isLedWrite x = false := by
  cases x <;> simp [isSenderEffect, isLedWrite] at h ⊢

theorem isSenderEffect_not_sleep (id : Nat) (x : Effect) (h : isSenderEffect id x = true) :
    isSleepCall x = false := by
  cases x <;> simp [isSenderEffect, isSleepCall] at h ⊢

theorem isWakeEffect_not_led (x : Effect) (h : isWakeEffect x = true) :
    isLedWrite x = false := by
  cases x <;> simp [isWakeEffect, isSenderEffect, isLedWrite] at h ⊢

theorem loop_drowsy (s : Sys) (hlo : 300000 ≤ sub32 (millis s.env) s.core.lastActivityMs)
    (hhi : sub32 (millis s.env) s.core.lastActivityMs < 900000) :
    loop s = loopDrowsy (millis s.env) (withLinked s) := by
  rw [loop_unfold, loopRegime, (regimeOfIdle_drowsy _).2 ⟨hlo, hhi⟩]

theorem anyButtonActive_false (e : Env) (h : anyButtonActive e = false) :
    isBtnActive e BTN1_PIN = false ∧ isBtnActive e BTN2_PIN = false := by
  simpa [anyButtonActive] using h

/-- The calls of a Drowsy iteration that sends immediately: those of one `sendBtn`. -/
theorem sendBtn_newTrace (id : Nat) (s0 s : Sys) (he : s.env = s0.env) :
    (newTrace s0 (sendBtn id s)).all (isSenderEffect id) = true ∧
      btnReports (newTrace s0 (sendBtn id s)) = [id] := by
  obtain ⟨l, t, p, r, _⟩ := sendBtn_trace id s
  have : newTrace s0 (sendBtn id s) = l := by simp [newTrace, t, he]
  rw [this]
  exact ⟨p, r⟩

theorem sendBtn_buttons (id : Nat) (s : Sys) :
    (sendBtn id s).core.b1 = s.core.b1 ∧ (sendBtn id s).core.b2 = s.core.b2 := by
  rcases sendBtnLoop_core id MAX_RETRIES 0 s with h | ⟨v, h⟩ <;> simp only [sendBtn, h, and_self]

/-- C16 (amended): a Drowsy-regime iteration does not apply the Indicator contract's priority.
When no button is instantaneously active before suspending, it writes the indicator once, with
the breathing intensity (at most `BREATH_MAX_RAW = 51`), whether or not the node is linked;
when a button is active, it does not write the indicator at all in that iteration. -/
theorem drowsy_indicator (s : Sys)
    (hlo : 300000 ≤ sub32 (millis s.env) s.core.lastActivityMs)
    (hhi : sub32 (millis s.env) s.core.lastActivityMs < 900000) :
    (anyButtonActive s.env = false →
      (newTrace s (loop s)).filter isLedWrite =
        [Effect.analogWrite LED_PIN (breathVal (millis s.env) s.core.lastActivityMs)]) ∧
    (anyButtonActive s.env = true → (newTrace s (loop s)).filter isLedWrite = []) ∧
    breathVal (millis s.env) s.core.lastActivityMs ≤ BREATH_MAX_RAW ∧
    (loop s).core.linked = loopLinked (millis s.env) s.core.lastAckMs := by
  have hloop := loop_drowsy s hlo hhi
  refine ⟨?_, ?_, ?_, (loop_link s).1⟩
  · intro hno
    obtain ⟨h1, h2⟩ := anyButtonActive_false s.env hno
    obtain ⟨l, t, p, _⟩ := loopDrowsy_idle (millis s.env) (withLinked s) h1 h2
    have hl := any_false_of_all _ _ l isWakeEffect_not_led p
    have hnt : newTrace s (loop s) =
        (Effect.analogWrite LED_PIN (breathVal (millis s.env) s.core.lastActivityMs)
          :: sleepPrelude) ++ l := by
      rw [hloop]
      simp only [newTrace, t]
      simp [withLinked]
    have hfl : l.filter isLedWrite = [] := by
      rw [List.filter_eq_nil_iff]
      intro x hx
      have := (List.any_eq_false.1 hl) x hx
      simpa using this
    rw [hnt, List.filter_append, hfl]
    simp [sleepPrelude, isLedWrite]
  · intro hany
    have hall : ∃ id, (newTrace s (loop s)).all (isSenderEffect id) = true := by
      rw [hloop]
      cases h1 : isBtnActive s.env BTN1_PIN with
      | true =>
        rw [loopDrowsy_btn1 _ (withLinked s) h1]
        exact ⟨1, (sendBtn_newTrace 1 s (withLinked s) rfl).1⟩
      | false =>
        have h2 : isBtnActive s.env BTN2_PIN = true := by
          simpa [anyButtonActive, h1] using hany
        rw [loopDrowsy_btn2 _ (withLinked s) h1 h2]
        exact ⟨2, (sendBtn_newTrace 2 s (withLinked s) rfl).1⟩
    obtain ⟨id, hall⟩ := hall
    have hl := any_false_of_all _ _ _ (isSenderEffect_not_led id) hall
    rw [List.filter_eq_nil_iff]
    intro x hx
    have := (List.any_eq_false.1 hl) x hx
    simpa using this
  · have := triangle_le (sub32 (millis s.env) s.core.lastActivityMs % 2000)
    rw [← breathVal_eq_triangle] at this
    exact this

/-- Witness for C16: a linked Drowsy state with no button pressed writes the breathing value. -/
theorem drowsy_indicator_witness :
    300000 ≤ sub32 (millis drowsyLinkedSys.env) drowsyLinkedSys.core.lastActivityMs ∧
    sub32 (millis drowsyLinkedSys.env) drowsyLinkedSys.core.lastActivityMs < 900000 ∧
    ((anyButtonActive drowsyLinkedSys.env = false →
      (newTrace drowsyLinkedSys (loop drowsyLinkedSys)).filter isLedWrite =
        [Effect.analogWrite LED_PIN
          (breathVal (millis drowsyLinkedSys.env) drowsyLinkedSys.core.lastActivityMs)]) ∧
    (anyButtonActive drowsyLinkedSys.env = true →
      (newTrace drowsyLinkedSys (loop drowsyLinkedSys)).filter isLedWrite = []) ∧
    breathVal (millis drowsyLinkedSys.env) drowsyLinkedSys.core.lastActivityMs
      ≤ BREATH_MAX_RAW ∧
    (loop drowsyLinkedSys).core.linked =
      loopLinked (millis drowsyLinkedSys.env) drowsyLinkedSys.core.lastAckMs) :=
  ⟨by decide, by decide, drowsy_indicator drowsyLinkedSys (by decide) (by decide)⟩

/-- C16 as stated fails: a Drowsy iteration of a linked node with no button pressed writes the
breathing value 25, not 64; with button 1 held it writes nothing to the indicator, not 255. -/
theorem drowsy_indicator_counterexample :
    loopRegime (millis drowsyLinkedSys.env) drowsyLinkedSys.core.lastActivityMs
      = some Regime.Drowsy ∧
    (loop drowsyLinkedSys).core.linked = true ∧
    anyButtonActive drowsyLinkedSys.env = false ∧
    (newTrace drowsyLinkedSys (loop drowsyLinkedSys)).filter isLedWrite =
      [Effect.analogWrite LED_PIN 25] ∧
    (newTrace drowsyLinkedSys (loop drowsyLinkedSys)).filter isLedWrite ≠
      [Effect.analogWrite LED_PIN 64] ∧
    loopRegime (millis drowsyHeldSys.env) drowsyHeldSys.core.lastActivityMs
      = some Regime.Drowsy ∧
    anyButtonActive drowsyHeldSys.env = true ∧
    (newTrace drowsyHeldSys (loop drowsyHeldSys)).filter isLedWrite = [] ∧
    (newTrace drowsyHeldSys (loop drowsyHeldSys)).filter isLedWrite ≠
      [Effect.analogWrite LED_PIN 255] := by
  decide

/-- C18: in every Drowsy-regime iteration where a button reads instantaneously active before
suspending, `loop` sends exactly one button event, for button 1 if it is active and otherwise
for button 2 (only button 1 when both are active), without consulting the debouncer, and skips
sleeping: no wake source is armed, no light sleep is entered and the indicator is not written.
When no button is active, the iteration sends no button event before suspending. -/
theorem drowsy_immediate_send (s : Sys)
    (hlo : 300000 ≤ sub32 (millis s.env) s.core.lastActivityMs)
    (hhi : sub32 (millis s.env) s.core.lastActivityMs < 900000) :
    (isBtnActive s.env BTN1_PIN = true →
      loop s = sendBtn 1 (withLinked s) ∧
      btnReports (newTrace s (loop s)) = [1] ∧
      (newTrace s (loop s)).all (isSenderEffect 1) = true) ∧
    (isBtnActive s.env BTN1_PIN = false → isBtnActive s.env BTN2_PIN = true →
      loop s = sendBtn 2 (withLinked s) ∧
      btnReports (newTrace s (loop s)) = [2] ∧
      (newTrace s (loop s)).all (isSenderEffect 2) = true) ∧
    (anyButtonActive s.env = true →
      (btnReports (newTrace s (loop s))).length = 1 ∧
      (newTrace s (loop s)).any isSleepCall = false ∧
      (newTrace s (loop s)).any isLedWrite = false ∧
      (loop s).core.b1 = s.core.b1 ∧ (loop s).core.b2 = s.core.b2) ∧
    (anyButtonActive s.env = false →
      (Effect.analogWrite LED_PIN (breathVal (millis s.env) s.core.lastActivityMs)
        :: sleepPrelude) <+: newTrace s (loop s) ∧
      btnReports (Effect.analogWrite LED_PIN (breathVal (millis s.env) s.core.lastActivityMs)
        :: sleepPrelude) = [] ∧
      (Effect.analogWrite LED_PIN (breathVal (millis s.env) s.core.lastActivityMs)
        :: sleepPrelude).any isSendAttempt = false) := by
  have hloop := loop_drowsy s hlo hhi
  have b1 : isBtnActive s.env BTN1_PIN = true →
      loop s = sendBtn 1 (withLinked s) ∧
      btnReports (newTrace s (loop s)) = [1] ∧
      (newTrace s (loop s)).all (isSenderEffect 1) = true := by
    intro h1
    have e : loop s = sendBtn 1 (withLinked s) := by
      rw [hloop, loopDrowsy_btn1 _ (withLinked s) h1]
    have t := sendBtn_newTrace 1 s (withLinked s) rfl
    rw [e]
    exact ⟨rfl, t.2, t.1⟩
  have b2 : isBtnActive s.env BTN1_PIN = false → isBtnActive s.env BTN2_PIN = true →
      loop s = sendBtn 2 (withLinked s) ∧
      btnReports (newTrace s (loop s)) = [2] ∧
      (newTrace s (loop s)).all (isSenderEffect 2) = true := by
    intro h1 h2
    have e : loop s = sendBtn 2 (withLinked s) := by
      rw [hloop, loopDrowsy_btn2 _ (withLinked s) h1 h2]
    have t := sendBtn_newTrace 2 s (withLinked s) rfl
    rw [e]
    exact ⟨rfl, t.2, t.1⟩
  refine ⟨b1, b2, ?_, ?_⟩
  · intro hany
    have key : ∃ id, loop s = sendBtn id (withLinked s) ∧
        btnReports (newTrace s (loop s)) = [id] ∧
        (newTrace s (loop s)).all (isSenderEffect id) = true := by
      cases h1 : isBtnActive s.env BTN1_PIN with
      | true => exact ⟨1, b1 h1⟩
      | false =>
        have h2 : isBtnActive s.env BTN2_PIN = true := by
          simpa [anyButtonActive, h1] using hany
        exact ⟨2, b2 h1 h2⟩
    obtain ⟨id, e, r, a⟩ := key
    refine ⟨by rw [r]; rfl, any_false_of_all _ _ _ (isSenderEffect_not_sleep id) a,
      any_false_of_all _ _ _ (isSenderEffect_not_led id) a, ?_, ?_⟩
    · rw [e, (sendBtn_buttons id _).1]
      rfl
    · rw [e, (sendBtn_buttons id _).2]
      rfl
  · intro hno
    obtain ⟨h1, h2⟩ := anyButtonActive_false s.env hno
    obtain ⟨l, t, _, _⟩ := loopDrowsy_idle (millis s.env) (withLinked s) h1 h2
    refine ⟨⟨l, ?_⟩, by simp [sleepPrelude, btnReports],
      by simp [sleepPrelude, isSendAttempt]⟩
    rw [hloop]
    simp only [newTrace, t]
    simp [withLinked]

/-- Witness for C18: a Drowsy state with button 1 held sends its event and returns. -/
theorem drowsy_immediate_send_witness :
    300000 ≤ sub32 (millis drowsyHeldSys.env) drowsyHeldSys.core.lastActivityMs ∧
    sub32 (millis drowsyHeldSys.env) drowsyHeldSys.core.lastActivityMs < 900000 ∧
    newTrace drowsyHeldSys (loop drowsyHeldSys) =
      [Effect.espNowSend [MSG_BTN, 1], Effect.logBtnSent 1,
       Effect.storeLastActivity 300500] ∧
    ((isBtnActive drowsyHeldSys.env BTN1_PIN = true →
      loop drowsyHeldSys = sendBtn 1 (withLinked drowsyHeldSys) ∧
      btnReports (newTrace drowsyHeldSys (loop drowsyHeldSys)) = [1] ∧
      (newTrace drowsyHeldSys (loop drowsyHeldSys)).all (isSenderEffect 1) = true) ∧
    (isBtnActive drowsyHeldSys.env BTN1_PIN = false →
      isBtnActive drowsyHeldSys.env BTN2_PIN = true →
      loop drowsyHeldSys = sendBtn 2 (withLinked drowsyHeldSys) ∧
      btnReports (newTrace drowsyHeldSys (loop drowsyHeldSys)) = [2] ∧
      (newTrace drowsyHeldSys (loop drowsyHeldSys)).all (isSenderEffect 2) = true) ∧
    (anyButtonActive drowsyHeldSys.env = true →
      (btnReports (newTrace drowsyHeldSys (loop drowsyHeldSys))).length = 1 ∧
      (newTrace drowsyHeldSys (loop drowsyHeldSys)).any isSleepCall = false ∧
      (newTrace drowsyHeldSys (loop drowsyHeldSys)).any isLedWrite = false ∧
      (loop drowsyHeldSys).core.b1 = drowsyHeldSys.core.b1 ∧
      (loop drowsyHeldSys).core.b2 = drowsyHeldSys.core.b2) ∧
    (anyButtonActive drowsyHeldSys.env = false →
      (Effect.analogWrite LED_PIN
          (breathVal (millis drowsyHeldSys.env) drowsyHeldSys.core.lastActivityMs)
        :: sleepPrelude) <+: newTrace drowsyHeldSys (loop drowsyHeldSys) ∧
      btnReports (Effect.analogWrite LED_PIN
          (breathVal (millis drowsyHeldSys.env) drowsyHeldSys.core.lastActivityMs)
        :: sleepPrelude) = [] ∧
      (Effect.analogWrite LED_PIN
          (breathVal (millis drowsyHeldSys.env) drowsyHeldSys.core.lastActivityMs)
        :: sleepPrelude).any isSendAttempt = false)) :=
  ⟨by decide, by decide, by decide,
    drowsy_immediate_send drowsyHeldSys (by decide) (by decide)⟩

/-! ## The clock never runs backwards -/

theorem sub32_advance (c e last : Nat) (h : sub32 (c % U32) last + e < U32) :
    sub32 ((c + e) % U32) last = sub32 (c % U32) last + e := by
  simp only [sub32, U32] at *
  omega

theorem sendBtn_clock_le (id : Nat) (s : Sys) : s.env.clock ≤ (sendBtn id s).env.clock := by
  by_cases h0 : s.env.txResult s.env.txCalls = true
  · rw [sendBtn_first_ok id s h0]
  by_cases h1 : s.env.txResult (s.env.txCalls + 1) = true
  · rw [sendBtn_second_ok id s (by simpa using h0) h1]
    exact Nat.le_add_right _ _
  by_cases h2 : s.env.txResult (s.env.txCalls + 2) = true
  · rw [sendBtn_third_ok id s (by simpa using h0) (by simpa using h1) h2]
    exact Nat.le_add_right _ _
  · rw [sendBtn_all_fail id s (by simpa using h0) (by simpa using h1) (by simpa using h2)]
    exact Nat.le_add_right _ _

theorem sendPing_clock (s : Sys) : (sendPing s).env.clock = s.env.clock := by
  simp only [sendPing, espNowSend]
  split_ifs <;> rfl

theorem ledTask_clock (s : Sys) : (ledTask s).env.clock = s.env.clock := by
  rw [ledTask_eq]
  rfl

theorem clock_then_sendBtn (c0 id : Nat) (a : Sys) (c : Prop) [Decidable c]
    (h : c0 ≤ a.env.clock) : c0 ≤ (if c then sendBtn id a else a).env.clock := by
  split_ifs
  · exact le_trans h (sendBtn_clock_le id a)
  · exact h

theorem activeBeforeLed_clock_le (now : Nat) (s : Sys) :
    s.env.clock ≤ (activeBeforeLed now s).env.clock := by
  simp only [activeBeforeLed, USE_BTN2, if_true]
  have f2 := clock_then_sendBtn s.env.clock 1
    { core := { s.core with b1 := (pressEvent s.core.b1 s.env).2 }, env := s.env }
    ((pressEvent s.core.b1 s.env).1 = true) (le_refl _)
  generalize (if (pressEvent s.core.b1 s.env).1 = true then
    sendBtn 1 { core := { s.core with b1 := (pressEvent s.core.b1 s.env).2 }, env := s.env }
    else { core := { s.core with b1 := (pressEvent s.core.b1 s.env).2 }, env := s.env }) = s2
    at f2 ⊢
  have f4 := clock_then_sendBtn s.env.clock 2
    { core := { s2.core with b2 := (pressEvent s2.core.b2 s2.env).2 }, env := s2.env }
    ((pressEvent s2.core.b2 s2.env).1 = true) f2
  generalize (if (pressEvent s2.core.b2 s2.env).1 = true then
    sendBtn 2 { core := { s2.core with b2 := (pressEvent s2.core.b2 s2.env).2 }, env := s2.env }
    else { core := { s2.core with b2 := (pressEvent s2.core.b2 s2.env).2 }, env := s2.env }) = s4
    at f4 ⊢
  split_ifs
  · rw [sendPing_clock]
    exact f4
  · exact f4

theorem loopActive_clock_le (now : Nat) (s : Sys) :
    s.env.clock ≤ (loopActive now s).env.clock := by
  rw [loopActive_eq]
  have h := activeBeforeLed_clock_le now s
  have e : (delay 1 (ledTask (activeBeforeLed now s))).env.clock =
      (activeBeforeLed now s).env.clock + 1 := by
    simp only [delay, emit, ledTask_clock]
  omega

theorem lightSleepTick_clock (us : Nat) (s : Sys) :
    (lightSleepTick us s).2.env.clock = s.env.clock + (s.env.sleepWake s.env.clock).2 := by
  simp [lightSleepTick, enableGpioWakeLow_Light, emit, USE_BTN2]

theorem afterWake_clock_le (cause : WakeCause) (a : Sys) :
    a.env.clock ≤
      (if cause = WakeCause.gpioWake then
        (if isBtnActive (delay 20 a).env BTN1_PIN = true then sendBtn 1 (delay 20 a)
         else if (USE_BTN2 && isBtnActive (delay 20 a).env BTN2_PIN) = true then
           sendBtn 2 (delay 20 a)
         else delay 20 a)
       else a).env.clock := by
  have hd : a.env.clock ≤ (delay 20 a).env.clock := Nat.le_add_right _ _
  split_ifs
  · exact le_trans hd (sendBtn_clock_le 1 _)
  · exact le_trans hd (sendBtn_clock_le 2 _)
  · exact hd
  · exact le_refl _

theorem loopDrowsy_clock_le (now : Nat) (s : Sys) :
    s.env.clock ≤ (loopDrowsy now s).env.clock := by
  cases h1 : isBtnActive s.env BTN1_PIN with
  | true =>
    rw [loopDrowsy_btn1 now s h1]
    exact sendBtn_clock_le 1 s
  | false =>
    cases h2 : isBtnActive s.env BTN2_PIN with
    | true =>
      rw [loopDrowsy_btn2 now s h1 h2]
      exact sendBtn_clock_le 2 s
    | false =>
      simp only [loopDrowsy, h1, h2, Bool.and_false, Bool.false_eq_true, if_false]
      refine le_trans ?_ (afterWake_clock_le _ _)
      rw [lightSleepTick_clock]
      exact Nat.le_add_right _ _

theorem goToDeepSleep_clock (s : Sys) : (goToDeepSleep s).env.clock = s.env.clock := by
  simp [goToDeepSleep, enableGpioWakeLow_Deep, ledOff, ledWriteRaw, emit, USE_BTN2]

theorem loop_clock_le (s : Sys) : s.env.clock ≤ (loop s).env.clock := by
  rw [loop_unfold]
  split
  · exact loopActive_clock_le _ (withLinked s)
  · exact loopDrowsy_clock_le _ (withLinked s)
  · rw [goToDeepSleep_clock]
    exact le_refl _
  · exact le_refl _

theorem step_clock_le (x : Step) (s : Sys) : s.env.clock ≤ (step x s).env.clock := by
  cases x with
  | tick =>
    simp only [step]
    split_ifs
    · exact le_refl _
    · exact loop_clock_le s
  | recv data len =>
    rw [step, (onRecv_frame data len s).1]

theorem run_clock_le (steps : List Step) : ∀ s : Sys, s.env.clock ≤ (run steps s).env.clock := by
  induction steps with
  | nil => intro s; exact le_refl _
  | cons x rest ih =>
    intro s
    exact le_trans (step_clock_le x s) (ih (step x s))

/-! ## Send outcome and regime -/

theorem sendBtnSent_eq_any (id : Nat) (s : Sys) :
    sendBtnSent id s = (newTrace s (sendBtn id s)).any isBtnSentLog := by
  by_cases h0 : s.env.txResult s.env.txCalls = true
  · simp [sendBtnSent, newTrace, sendBtn_first_ok id s h0, isBtnSentLog]
  by_cases h1 : s.env.txResult (s.env.txCalls + 1) = true
  · simp [sendBtnSent, newTrace, sendBtn_second_ok id s (by simpa using h0) h1, isBtnSentLog]
  by_cases h2 : s.env.txResult (s.env.txCalls + 2) = true
  · simp [sendBtnSent, newTrace,
      sendBtn_third_ok id s (by simpa using h0) (by simpa using h1) h2, isBtnSentLog]
  · simp [sendBtnSent, newTrace,
      sendBtn_all_fail id s (by simpa using h0) (by simpa using h1) (by simpa using h2),
      isBtnSentLog]

theorem sendBtn_outcome (id : Nat) (s : Sys) :
    (sendBtnSent id s = true → (sendBtn id s).core.lastActivityMs = millis (sendBtn id s).env) ∧
      (sendBtnSent id s = false → (sendBtn id s).core = s.core) := by
  obtain ⟨l, t, _, _, a, b⟩ := sendBtn_trace id s
  have hl : newTrace s (sendBtn id s) = l := by simp [newTrace, t]
  rw [sendBtnSent_eq_any, hl]
  exact ⟨b, a⟩

theorem regimeOfIdle_mono (i1 i2 : Nat) (h : i1 ≤ i2) (r1 r2 : Regime)
    (h1 : regimeOfIdle i1 = some r1) (h2 : regimeOfIdle i2 = some r2) : r1.rank ≤ r2.rank := by
  cases r1 <;> cases r2 <;> simp only [Regime.rank] <;> try omega
  · have a := (regimeOfIdle_drowsy _).1 h1
    have b := (regimeOfIdle_active _).1 h2
    omega
  · have a := (regimeOfIdle_deep _).1 h1
    have b := (regimeOfIdle_active _).1 h2
    omega
  · have a := (regimeOfIdle_deep _).1 h1
    have b := (regimeOfIdle_drowsy _).1 h2
    omega

/-- While `lastActivityMs` is kept and the idle time does not wrap, the idle time grows with
the clock and the regime never steps back. -/
theorem regime_keeps_rank (s s2 : Sys)
    (hk : s2.core.lastActivityMs = s.core.lastActivityMs) (hc : s.env.clock ≤ s2.env.clock)
    (hw : sub32 (millis s.env) s.core.lastActivityMs + (s2.env.clock - s.env.clock) < U32) :
    sub32 (millis s2.env) s2.core.lastActivityMs =
        sub32 (millis s.env) s.core.lastActivityMs + (s2.env.clock - s.env.clock) ∧
      (∀ r1 r2, loopRegime (millis s.env) s.core.lastActivityMs = some r1 →
        loopRegime (millis s2.env) s2.core.lastActivityMs = some r2 → r1.rank ≤ r2.rank) ∧
      (loopRegime (millis s.env) s.core.lastActivityMs = some Regime.Drowsy →
        loopRegime (millis s2.env) s2.core.lastActivityMs ≠ some Regime.Active) := by
  have e : sub32 (millis s2.env) s2.core.lastActivityMs =
      sub32 (millis s.env) s.core.lastActivityMs + (s2.env.clock - s.env.clock) := by
    have hc2 : s2.env.clock = s.env.clock + (s2.env.clock - s.env.clock) := by omega
    rw [hk]
    simp only [millis] at hw ⊢
    rw [hc2]
    rw [sub32_advance _ _ _ (by simpa using hw)]
    simp
  refine ⟨e, ?_, ?_⟩
  · intro r1 r2 h1 h2
    exact regimeOfIdle_mono _ _ (by rw [e]; exact Nat.le_add_right _ _) r1 r2 h1 h2
  · intro h1 h2
    have := regimeOfIdle_mono _ _ (by rw [e]; exact Nat.le_add_right _ _) _ _ h1 h2
    simp [Regime.rank] at this

/-- C20: a successful button send returns the node to the Active regime: if `sendBtn`
succeeds at time `s`, in any regime, then at every later `loop` iteration at time `now` with
`now - s < IDLE_LIGHT_MS` and no intervening successful send the regime selected is Active.
If the send fails, `lastActivityMs` is kept and the idle time keeps accumulating, so the
regime selected afterwards is never lower than before: a failed Drowsy send cannot bring the
node back to Active. -/
theorem send_outcome_and_regime (id : Nat) (s : Sys) (steps : List Step)
    (hnone : (newTrace (sendBtn id s) (run steps (sendBtn id s))).any isBtnSentLog = false) :
    (sendBtnSent id s = true →
      (sendBtn id s).core.lastActivityMs = millis (sendBtn id s).env ∧
      (run steps (sendBtn id s)).core.lastActivityMs = millis (sendBtn id s).env ∧
      (sub32 (millis (run steps (sendBtn id s)).env) (millis (sendBtn id s).env)
          < IDLE_LIGHT_MS →
        loopRegime (millis (run steps (sendBtn id s)).env)
          (run steps (sendBtn id s)).core.lastActivityMs = some Regime.Active ∧
        loop (run steps (sendBtn id s)) =
          loopActive (millis (run steps (sendBtn id s)).env)
            (withLinked (run steps (sendBtn id s))))) ∧
    (sendBtnSent id s = false →
      (sendBtn id s).core = s.core ∧
      (run steps (sendBtn id s)).core.lastActivityMs = s.core.lastActivityMs ∧
      s.env.clock ≤ (run steps (sendBtn id s)).env.clock ∧
      (sub32 (millis s.env) s.core.lastActivityMs +
          ((run steps (sendBtn id s)).env.clock - s.env.clock) < U32 →
        sub32 (millis (run steps (sendBtn id s)).env)
            (run steps (sendBtn id s)).core.lastActivityMs =
          sub32 (millis s.env) s.core.lastActivityMs +
            ((run steps (sendBtn id s)).env.clock - s.env.clock) ∧
        (∀ r1 r2, loopRegime (millis s.env) s.core.lastActivityMs = some r1 →
          loopRegime (millis (run steps (sendBtn id s)).env)
            (run steps (sendBtn id s)).core.lastActivityMs = some r2 →
          r1.rank ≤ r2.rank) ∧
        (loopRegime (millis s.env) s.core.lastActivityMs = some Regime.Drowsy →
          loopRegime (millis (run steps (sendBtn id s)).env)
            (run steps (sendBtn id s)).core.lastActivityMs ≠ some Regime.Active))) := by
  have hout := sendBtn_outcome id s
  have hkept : (run steps (sendBtn id s)).core.lastActivityMs
      = (sendBtn id s).core.lastActivityMs :=
    (Frame.trace_eq _ _ _ (frame_run steps (sendBtn id s))).2.2 hnone
  refine ⟨?_, ?_⟩
  · intro hs
    have h1 := hout.1 hs
    refine ⟨h1, by rw [hkept, h1], ?_⟩
    intro hnear
    have hreg : loopRegime (millis (run steps (sendBtn id s)).env)
        (run steps (sendBtn id s)).core.lastActivityMs = some Regime.Active := by
      rw [loopRegime, hkept, h1]
      exact (regimeOfIdle_active _).2 (by simpa [IDLE_LIGHT_MS] using hnear)
    refine ⟨hreg, ?_⟩
    rw [loop_unfold, hreg]
  · intro hf
    have h1 := hout.2 hf
    have hk : (run steps (sendBtn id s)).core.lastActivityMs = s.core.lastActivityMs := by
      rw [hkept, h1]
    have hc : s.env.clock ≤ (run steps (sendBtn id s)).env.clock :=
      le_trans (sendBtn_clock_le id s) (run_clock_le steps _)
    exact ⟨h1, hk, hc, fun hw => regime_keeps_rank s _ hk hc hw⟩

/-- Witness for C20: a Drowsy immediate send that succeeds, followed by two iterations and an
Ack; and one that fails on a dead radio, followed by one more iteration. -/
theorem send_outcome_and_regime_witness :
    (newTrace (sendBtn 1 drowsyHeldSys) (run tickAckTick (sendBtn 1 drowsyHeldSys))).any
        isBtnSentLog = false ∧
    sendBtnSent 1 drowsyHeldSys = true ∧
    ((sendBtnSent 1 drowsyHeldSys = true →
      (sendBtn 1 drowsyHeldSys).core.lastActivityMs = millis (sendBtn 1 drowsyHeldSys).env ∧
      (run tickAckTick (sendBtn 1 drowsyHeldSys)).core.lastActivityMs = millis (sendBtn 1
          drowsyHeldSys).env ∧
      (sub32 (millis (run tickAckTick (sendBtn 1 drowsyHeldSys)).env) (millis (sendBtn 1
          drowsyHeldSys).env)
          < IDLE_LIGHT_MS →
        loopRegime (millis (run tickAckTick (sendBtn 1 drowsyHeldSys)).env)
          (run tickAckTick (sendBtn 1 drowsyHeldSys)).core.lastActivityMs = some Regime.Active ∧
        loop (run tickAckTick (sendBtn 1 drowsyHeldSys)) =
          loopActive (millis (run tickAckTick (sendBtn 1 drowsyHeldSys)).env)
            (withLinked (run tickAckTick (sendBtn 1 drowsyHeldSys))))) ∧
    (sendBtnSent 1 drowsyHeldSys = false →
      (sendBtn 1 drowsyHeldSys).core = drowsyHeldSys.core ∧
      (run tickAckTick (sendBtn 1 drowsyHeldSys)).core.lastActivityMs =
          drowsyHeldSys.core.lastActivityMs ∧
      drowsyHeldSys.env.clock ≤ (run tickAckTick (sendBtn 1 drowsyHeldSys)).env.clock ∧
      (sub32 (millis drowsyHeldSys.env) drowsyHeldSys.core.lastActivityMs +
          ((run tickAckTick (sendBtn 1 drowsyHeldSys)).env.clock - drowsyHeldSys.env.clock) < U32 →
        sub32 (millis (run tickAckTick (sendBtn 1 drowsyHeldSys)).env)
            (run tickAckTick (sendBtn 1 drowsyHeldSys)).core.lastActivityMs =
          sub32 (millis drowsyHeldSys.env) drowsyHeldSys.core.lastActivityMs +
            ((run tickAckTick (sendBtn 1 drowsyHeldSys)).env.clock - drowsyHeldSys.env.clock) ∧
        (∀ r1 r2, loopRegime (millis drowsyHeldSys.env) drowsyHeldSys.core.lastActivityMs = some
            r1 →
          loopRegime (millis (run tickAckTick (sendBtn 1 drowsyHeldSys)).env)
            (run tickAckTick (sendBtn 1 drowsyHeldSys)).core.lastActivityMs = some r2 →
          r1.rank ≤ r2.rank) ∧
        (loopRegime (millis drowsyHeldSys.env) drowsyHeldSys.core.lastActivityMs = some
            Regime.Drowsy →
          loopRegime (millis (run tickAckTick (sendBtn 1 drowsyHeldSys)).env)
            (run tickAckTick (sendBtn 1 drowsyHeldSys)).core.lastActivityMs ≠ some
                Regime.Active)))) ∧
    (newTrace (sendBtn 1 drowsyDeadRadioSys) (run oneTick (sendBtn 1 drowsyDeadRadioSys))).any
        isBtnSentLog = false ∧
    sendBtnSent 1 drowsyDeadRadioSys = false ∧
    ((sendBtnSent 1 drowsyDeadRadioSys = true →
      (sendBtn 1 drowsyDeadRadioSys).core.lastActivityMs = millis (sendBtn 1
          drowsyDeadRadioSys).env ∧
      (run oneTick (sendBtn 1 drowsyDeadRadioSys)).core.lastActivityMs = millis (sendBtn 1
          drowsyDeadRadioSys).env ∧
      (sub32 (millis (run oneTick (sendBtn 1 drowsyDeadRadioSys)).env) (millis (sendBtn 1
          drowsyDeadRadioSys).env)
          < IDLE_LIGHT_MS →
        loopRegime (millis (run oneTick (sendBtn 1 drowsyDeadRadioSys)).env)
          (run oneTick (sendBtn 1 drowsyDeadRadioSys)).core.lastActivityMs = some Regime.Active ∧
        loop (run oneTick (sendBtn 1 drowsyDeadRadioSys)) =
          loopActive (millis (run oneTick (sendBtn 1 drowsyDeadRadioSys)).env)
            (withLinked (run oneTick (sendBtn 1 drowsyDeadRadioSys))))) ∧
    (sendBtnSent 1 drowsyDeadRadioSys = false →
      (sendBtn 1 drowsyDeadRadioSys).core = drowsyDeadRadioSys.core ∧
      (run oneTick (sendBtn 1 drowsyDeadRadioSys)).core.lastActivityMs =
          drowsyDeadRadioSys.core.lastActivityMs ∧
      drowsyDeadRadioSys.env.clock ≤ (run oneTick (sendBtn 1 drowsyDeadRadioSys)).env.clock ∧
      (sub32 (millis drowsyDeadRadioSys.env) drowsyDeadRadioSys.core.lastActivityMs +
          ((run oneTick (sendBtn 1 drowsyDeadRadioSys)).env.clock - drowsyDeadRadioSys.env.clock)
              < U32 →
        sub32 (millis (run oneTick (sendBtn 1 drowsyDeadRadioSys)).env)
            (run oneTick (sendBtn 1 drowsyDeadRadioSys)).core.lastActivityMs =
          sub32 (millis drowsyDeadRadioSys.env) drowsyDeadRadioSys.core.lastActivityMs +
            ((run oneTick (sendBtn 1 drowsyDeadRadioSys)).env.clock -
                drowsyDeadRadioSys.env.clock) ∧
        (∀ r1 r2, loopRegime (millis drowsyDeadRadioSys.env)
            drowsyDeadRadioSys.core.lastActivityMs = some r1 →
          loopRegime (millis (run oneTick (sendBtn 1 drowsyDeadRadioSys)).env)
            (run oneTick (sendBtn 1 drowsyDeadRadioSys)).core.lastActivityMs = some r2 →
          r1.rank ≤ r2.rank) ∧
        (loopRegime (millis drowsyDeadRadioSys.env) drowsyDeadRadioSys.core.lastActivityMs = some
            Regime.Drowsy →
          loopRegime (millis (run oneTick (sendBtn 1 drowsyDeadRadioSys)).env)
            (run oneTick (sendBtn 1 drowsyDeadRadioSys)).core.lastActivityMs ≠ some
                Regime.Active)))) :=
  ⟨by decide, by decide,
    send_outcome_and_regime 1 drowsyHeldSys tickAckTick
      (by decide),
    by decide, by decide,
    send_outcome_and_regime 1 drowsyDeadRadioSys oneTick (by decide)⟩

end Transmitter
